import Mathlib

/-!
# C_Snake: a shallow embedding of `src/main.c`

The program is a snake game for the Ripes RISC-V simulator.  It drives a
memory-mapped LED matrix, polls a switch register and four d-pad registers,
and runs an endless loop.

Embedding conventions.

* `unsigned int` values are natural numbers below `2^32`; every unsigned
  operation of the source is followed by an explicit `% 2^32`.
* `int` values (`Snake.length`, loop counters, `rand()` results) are
  mathematical integers; none of them leaves the range of `int` in the
  theorems below.  The counter `score` is only ever reset and incremented:
  `Game.score` counts the increments as a mathematical integer and
  `Game.scoreVar` is the value the 32-bit variable holds, the count wrapped to
  the range of `int` (signed overflow is undefined in C and wraps on the
  target).
* The array `segments[MAX_SNAKE_LENGTH]` is a list of positions; a well formed
  snake has a list of exactly `MAX_SNAKE_LENGTH` entries.  Reads outside the
  list give `(0,0)` and writes outside the list are dropped; both are
  undefined in C and no theorem below relies on them.
* `LED_MATRIX_0_WIDTH` and `LED_MATRIX_0_HEIGHT` come from `ripes_system.h`,
  which is not part of the repository.  They are parameters `W` and `H`.
* The LED matrix is a volatile buffer.  It is modelled by the trace of the
  writes performed so far, most recent first; each write is a pair of the
  word index added to `led_base` and the colour stored.
* `rand()` is modelled by the list of the results it is going to return.
  A call that finds the list empty has no result: the run does not continue.
* `delay` busy-waits and touches no program state; it is not modelled.
* The locals `snake` and `food` of `main` are uninitialised when `initSnake`
  and `generateFood` first run.  Their prior content is a parameter of
  `mainStart`; `Reachable` collects the states at the start of the loop
  iterations that follow.
-/

namespace CSnake

/-! ## Constants (lines 12-23) -/

/-- Colour written for snake blocks (`SNAKE_COLOR`). -/
def SNAKE_COLOR : Nat := 0xFF0000

/-- Colour written for the food block (`FOOD_COLOR`). -/
def FOOD_COLOR : Nat := 0x00FF00

/-- Colour written when clearing (`BACKGROUND_COLOR`). -/
def BACKGROUND_COLOR : Nat := 0xFFFFFF

/-- Capacity of the segment array (`MAX_SNAKE_LENGTH`). -/
def MAX_SNAKE_LENGTH : Nat := 50

/-- Side of a grid block in pixels (`PIXEL_SIZE`). -/
def PIXEL_SIZE : Nat := 2

/-- Start coordinate of the head (`START_X`). -/
def START_X : Nat := 10

/-- Start coordinate of the head (`START_Y`). -/
def START_Y : Nat := 10

/-- Number of values of a 32-bit `unsigned int`. -/
def U32 : Nat := 4294967296

/-- Conversion of an `int` value to `unsigned int`. -/
def toU32 (n : Int) : Nat := (n % (U32 : Int)).toNat

/-! ## Data model (lines 25-40) -/

/-- The enumeration `GameState`. -/
inductive GameState where
  | GAME_OVER
  | RUNNING
  | PAUSED
  deriving DecidableEq

/-- The enumeration `Direction`. -/
inductive Direction where
  | UP
  | DOWN
  | LEFT
  | RIGHT
  deriving DecidableEq

/-- The struct `Position`: two `unsigned int` coordinates. -/
structure Position where
  x : Nat
  y : Nat
  deriving DecidableEq

/-- The struct `Snake`. -/
structure Snake where
  segments : List Position
  length : Int
  direction : Direction
  deriving DecidableEq

/-- The struct `Food`. -/
structure Food where
  position : Position
  deriving DecidableEq

/-- The display: the trace of writes `(word index, colour)`, most recent first. -/
abbrev Led := List (Nat × Nat)

/-- Read of `segments[i]`. -/
def Snake.seg (s : Snake) (i : Nat) : Position := s.segments.getD i ⟨0, 0⟩

/-- A snake whose segment array has its declared size. -/
def Snake.WellFormed (s : Snake) : Prop := s.segments.length = MAX_SNAKE_LENGTH

instance (s : Snake) : Decidable s.WellFormed := by
  unfold Snake.WellFormed; infer_instance

/-- The colour last written at word index `idx`, if any write went there. -/
def ledPixel (led : Led) (idx : Nat) : Option Nat :=
  (led.find? (fun w => w.1 == idx)).map (fun w => w.2)

/-! ## Snake model -/

/-- The function `initSnake` (lines 129-136). -/
def initSnake (snake : Snake) : Snake :=
  let length : Int := 3
  let segments := (List.range length.toNat).foldl
    (fun segs i => segs.set i ⟨toU32 ((START_X : Int) - (i : Int) * (PIXEL_SIZE : Int)), START_Y⟩)
    snake.segments
  { segments := segments, length := length, direction := Direction.RIGHT }

/-- The shift loop of `moveSnake` (lines 158-160), entered with counter `i`:
`segments[i] = segments[i - 1]` while `i > 0`, counting down. -/
def moveSnakeShift (segs : List Position) : Nat → List Position
  | 0 => segs
  | i + 1 => moveSnakeShift (segs.set (i + 1) (segs.getD i ⟨0, 0⟩)) i

/-- The head update of `moveSnake` (lines 161-167), in unsigned arithmetic. -/
def moveHead (d : Direction) (head : Position) : Position :=
  match d with
  | Direction.UP => { head with y := (head.y + U32 - PIXEL_SIZE) % U32 }
  | Direction.DOWN => { head with y := (head.y + PIXEL_SIZE) % U32 }
  | Direction.LEFT => { head with x := (head.x + U32 - PIXEL_SIZE) % U32 }
  | Direction.RIGHT => { head with x := (head.x + PIXEL_SIZE) % U32 }

/-- The function `moveSnake` (lines 157-168). -/
def moveSnake (snake : Snake) : Snake :=
  let segs := moveSnakeShift snake.segments (snake.length - 1).toNat
  { snake with segments := segs.set 0 (moveHead snake.direction (segs.getD 0 ⟨0, 0⟩)) }

/-- The growth step of the loop (lines 114-116). -/
def grow (snake : Snake) : Snake :=
  if snake.length < (MAX_SNAKE_LENGTH : Int) then { snake with length := snake.length + 1 }
  else snake

/-! ## Collision engine -/

/-- The function `checkWallCollision` (lines 193-196).  The coordinates are
unsigned, so the comparisons with `0` are comparisons of naturals. -/
def checkWallCollision (W H : Nat) (snake : Snake) : Bool :=
  let head := snake.seg 0
  decide (head.x < 0) || decide (head.x ≥ W) || decide (head.y < 0) || decide (head.y ≥ H)

/-- The function `checkSelfCollision` (lines 198-206): the search loop over
`i = 1 .. length - 1` returns at the first hit. -/
def checkSelfCollision (snake : Snake) : Bool :=
  let head := snake.seg 0
  (List.range' 1 (snake.length.toNat - 1)).any
    (fun i => head.x == (snake.seg i).x && head.y == (snake.seg i).y)

/-- The function `checkFoodCollision` (lines 208-211). -/
def checkFoodCollision (snake : Snake) (food : Food) : Bool :=
  let head := snake.seg 0
  head.x == food.position.x && head.y == food.position.y

/-! ## Food model -/

/-- The inner loop of `generateFood` (lines 176-181): true when the loop
leaves `valid = 0`. -/
def foodOnSnake (snake : Snake) (food : Food) : Bool :=
  (List.range snake.length.toNat).any
    (fun i => food.position.x == (snake.seg i).x && food.position.y == (snake.seg i).y)

/-- The function `generateFood` (lines 170-183).  Each round of the `while`
loop takes two results of `rand()`.  There is no result when the results run
out before a round succeeds, or when a modulus is zero (undefined in C). -/
def generateFood (W H : Nat) : List Int → Snake → Food → Option (Snake × Food × List Int)
  | r1 :: r2 :: rest, snake, _ =>
    if W / PIXEL_SIZE = 0 ∨ H / PIXEL_SIZE = 0 then none
    else
      let food : Food :=
        ⟨⟨toU32 (Int.tmod r1 ((W / PIXEL_SIZE : Nat) : Int) * (PIXEL_SIZE : Int)),
          toU32 (Int.tmod r2 ((H / PIXEL_SIZE : Nat) : Int) * (PIXEL_SIZE : Int))⟩⟩
      if foodOnSnake snake food then generateFood W H rest snake food
      else some (snake, food, rest)
  | _, _, _ => none

/-! ## Renderer -/

/-- The word offset from `led_base` of the drawing functions,
`led_base + (p.y + py) * LED_MATRIX_0_WIDTH + (p.x + px)`: the row term and
the column term are each computed in unsigned arithmetic and added to the
pointer one after the other, so their sum is not reduced. -/
def pixelIndex (W : Nat) (p : Position) (px py : Nat) : Nat :=
  ((p.y + py) % U32 * (W % U32)) % U32 + (p.x + px) % U32

/-- The double loop `for px, for py` shared by the drawing functions: it
stores `color` in the `PIXEL_SIZE x PIXEL_SIZE` block at `p`. -/
def paintBlock (W : Nat) (color : Nat) (p : Position) (led : Led) : Led :=
  (List.range PIXEL_SIZE).foldl
    (fun led px => (List.range PIXEL_SIZE).foldl
      (fun led py => (pixelIndex W p px py, color) :: led) led) led

/-- The function `drawSnake` (lines 138-146). -/
def drawSnake (W : Nat) (snake : Snake) (led : Led) : Led :=
  (List.range snake.length.toNat).foldl
    (fun led i => paintBlock W SNAKE_COLOR (snake.seg i) led) led

/-- The function `eraseSnakeTail` (lines 148-155). -/
def eraseSnakeTail (W : Nat) (snake : Snake) (led : Led) : Led :=
  let tail := snake.seg (snake.length - 1).toNat
  paintBlock W BACKGROUND_COLOR tail led

/-- The function `drawFood` (lines 185-191). -/
def drawFood (W : Nat) (food : Food) (led : Led) : Led :=
  paintBlock W FOOD_COLOR food.position led

/-- The function `clearBoard` (lines 213-219); the index is `int` arithmetic. -/
def clearBoard (W H : Nat) (led : Led) : Led :=
  (List.range W).foldl
    (fun led i => (List.range H).foldl
      (fun led j => (j * W + i, BACKGROUND_COLOR) :: led) led) led

/-! ## Game loop -/

/-- One sample of the input registers, taken by one loop iteration. -/
structure Input where
  switches : Nat
  up : Nat
  down : Nat
  left : Nat
  right : Nat
  deriving DecidableEq

/-- The variables of `main`, the display trace and the pending `rand()`
results.  The field `score` is the number of `score++` since the last
`score = 0`; see `Game.scoreVar` for the value of the 32-bit variable. -/
structure Game where
  snake : Snake
  food : Food
  game_state : GameState
  score : Int
  previous_switch_state : Nat
  led : Led
  rands : List Int
  deriving DecidableEq

/-- The direction update of the loop (lines 95-103). -/
def updateDirection (inp : Input) (d : Direction) : Direction :=
  if inp.up ≠ 0 ∧ d ≠ Direction.DOWN then Direction.UP
  else if inp.down ≠ 0 ∧ d ≠ Direction.UP then Direction.DOWN
  else if inp.left ≠ 0 ∧ d ≠ Direction.RIGHT then Direction.LEFT
  else if inp.right ≠ 0 ∧ d ≠ Direction.LEFT then Direction.RIGHT
  else d

/-- The prelude of `main` (lines 55-65).  `snake0` and `food0` are the
uninitialised contents of the locals and `sw0` is the first switch sample. -/
def mainStart (W H : Nat) (sw0 : Nat) (snake0 : Snake) (food0 : Food) (rands : List Int) :
    Option Game :=
  let snake := initSnake snake0
  match generateFood W H rands snake food0 with
  | none => none
  | some (snake, food, rest) =>
    some { snake := snake, food := food, game_state := GameState.GAME_OVER, score := 0,
           previous_switch_state := sw0 &&& 1,
           led := drawFood W food (drawSnake W snake (clearBoard W H [])),
           rands := rest }

/-- The switch handling of one loop iteration (lines 68-88). -/
def switchPhase (W H : Nat) (inp : Input) (g : Game) : Option Game :=
  let current_switch_state := inp.switches &&& 3
  if current_switch_state = 1 ∧ g.game_state = GameState.GAME_OVER then
    let snake := initSnake g.snake
    match generateFood W H g.rands snake g.food with
    | none => none
    | some (snake, food, rest) =>
      some { g with game_state := GameState.RUNNING, score := 0, snake := snake, food := food,
                    rands := rest,
                    led := drawFood W food (drawSnake W snake (clearBoard W H g.led)) }
  else if current_switch_state = 2 then
    let led := clearBoard W H g.led
    let snake := initSnake g.snake
    match generateFood W H g.rands snake g.food with
    | none => none
    | some (snake, food, rest) =>
      some { g with game_state := GameState.GAME_OVER, snake := snake, food := food,
                    rands := rest, led := drawFood W food (drawSnake W snake led), score := 0 }
  else some g

/-- The RUNNING part of one loop iteration (lines 95-124). -/
def runningTick (W H : Nat) (inp : Input) (g : Game) : Option Game :=
  let snake := { g.snake with direction := updateDirection inp g.snake.direction }
  let led := eraseSnakeTail W snake g.led
  let snake := moveSnake snake
  if checkWallCollision W H snake || checkSelfCollision snake then
    some { g with snake := snake, led := led, game_state := GameState.GAME_OVER }
  else if checkFoodCollision snake g.food then
    match generateFood W H g.rands (grow snake) g.food with
    | none => none
    | some (snake, food, rest) =>
      some { g with snake := snake, food := food, rands := rest, score := g.score + 1,
                    led := drawFood W food (drawSnake W snake led) }
  else
    some { g with snake := snake, led := drawFood W g.food (drawSnake W snake led) }

/-- One iteration of the `while (1)` loop of `main` (lines 67-125). -/
def loopIteration (W H : Nat) (inp : Input) (g : Game) : Option Game :=
  match switchPhase W H inp g with
  | none => none
  | some g1 =>
    if g1.game_state = GameState.GAME_OVER ∨ g1.game_state = GameState.PAUSED then some g1
    else runningTick W H inp g1

/-- The loop of `main` run over a list of input samples, one per iteration. -/
def runLoop (W H : Nat) : List Input → Game → Option Game
  | [], g => some g
  | inp :: rest, g =>
    match loopIteration W H inp g with
    | none => none
    | some g' => runLoop W H rest g'

/-! ## Vocabulary of the specification -/

/-- The exact opposite of a direction. -/
def Direction.opposite : Direction → Direction
  | Direction.UP => Direction.DOWN
  | Direction.DOWN => Direction.UP
  | Direction.LEFT => Direction.RIGHT
  | Direction.RIGHT => Direction.LEFT

/-- The input sample has exactly the button of direction `b` pressed. -/
def Input.onlyPressed (inp : Input) (b : Direction) : Prop :=
  (inp.up ≠ 0 ↔ b = Direction.UP) ∧ (inp.down ≠ 0 ↔ b = Direction.DOWN) ∧
  (inp.left ≠ 0 ↔ b = Direction.LEFT) ∧ (inp.right ≠ 0 ↔ b = Direction.RIGHT)

/-- The input sample has no directional button pressed. -/
def Input.nonePressed (inp : Input) : Prop :=
  inp.up = 0 ∧ inp.down = 0 ∧ inp.left = 0 ∧ inp.right = 0

/-- The pixel (x, y) lies in the `PIXEL_SIZE x PIXEL_SIZE` block at `p`. -/
def inBlock (p : Position) (x y : Nat) : Prop :=
  p.x ≤ x ∧ x < p.x + PIXEL_SIZE ∧ p.y ≤ y ∧ y < p.y + PIXEL_SIZE

instance (p : Position) (x y : Nat) : Decidable (inBlock p x y) := by
  unfold inBlock; infer_instance

/-! ## Concrete inputs used by the witnesses -/

/-- The snake (10,10),(8,10),(6,10) of length 3 heading RIGHT; the 47 unused
entries hold (0,0). -/
def exampleSnake : Snake :=
  ⟨[⟨10, 10⟩, ⟨8, 10⟩, ⟨6, 10⟩] ++ List.replicate 47 ⟨0, 0⟩, 3, Direction.RIGHT⟩

/-- A snake of length 3 with its head (0,10) on the left edge, heading LEFT. -/
def leftEdgeSnake : Snake :=
  ⟨[⟨0, 10⟩, ⟨2, 10⟩, ⟨4, 10⟩] ++ List.replicate 47 ⟨0, 0⟩, 3, Direction.LEFT⟩

/-- A snake of length 5 whose head sits on its fifth segment. -/
def loopedSnake : Snake :=
  ⟨[⟨4, 4⟩, ⟨4, 6⟩, ⟨6, 6⟩, ⟨6, 4⟩, ⟨4, 4⟩] ++ List.replicate 45 ⟨0, 0⟩, 5, Direction.UP⟩

/-- A snake at full capacity. -/
def fullSnake : Snake := ⟨List.replicate 50 ⟨0, 0⟩, 50, Direction.UP⟩

/-- A RUNNING game whose snake has its head on the left edge, heading LEFT. -/
def crashingGame : Game :=
  { snake := leftEdgeSnake, food := ⟨⟨20, 20⟩⟩, game_state := GameState.RUNNING, score := 5,
    previous_switch_state := 0, led := [], rands := [3, 4] }

/-- An input sample with every register reading 0. -/
def idleInput : Input := ⟨0, 0, 0, 0, 0⟩

/-- A RUNNING game on a 35 x 25 display with the snake (10,10),(8,10),(6,10)
heading RIGHT, food far away at (20,20) and score 5. -/
def cruisingGame : Game :=
  { snake := exampleSnake, food := ⟨⟨20, 20⟩⟩, game_state := GameState.RUNNING, score := 5,
    previous_switch_state := 0, led := [], rands := [3, 4] }

/-- An input sample with both the start and the reset switch set. -/
def startAndResetInput : Input := ⟨3, 0, 0, 0, 0⟩

/-- An input sample with only the reset switch set. -/
def resetInput : Input := ⟨2, 0, 0, 0, 0⟩

/-- An input sample with only the start switch set. -/
def startInput : Input := ⟨1, 0, 0, 0, 0⟩

/-- Arbitrary initial contents of the local `snake` of `main`. -/
def garbageSnake : Snake := ⟨List.replicate 50 ⟨7, 7⟩, 9, Direction.UP⟩

/-! ## Reachable states -/

/-- The states the program can be in at the start of a loop iteration: the
prelude of `main` run on some uninitialised (well formed) locals and some
`rand()` results, followed by any number of iterations on any inputs. -/
def Reachable (W H : Nat) (g : Game) : Prop :=
  ∃ (sw0 : Nat) (snake0 : Snake) (food0 : Food) (rands : List Int) (inputs : List Input)
    (g0 : Game), snake0.WellFormed ∧ mainStart W H sw0 snake0 food0 rands = some g0 ∧
      runLoop W H inputs g0 = some g

/-- A program start on a 35 x 25 display: all switches off at the first
sample, the uninitialised array full of (7,7), `rand()` returning 0, 0, then
6, 5 (food at (12,10)), then 0, 0. -/
def exampleStart : Option Game := mainStart 35 25 0 garbageSnake ⟨⟨0, 0⟩⟩ [0, 0, 6, 5, 0, 0]

/-- A game waiting in GAME_OVER. -/
def waitingGame : Game :=
  { snake := exampleSnake, food := ⟨⟨20, 20⟩⟩, game_state := GameState.GAME_OVER, score := 5,
    previous_switch_state := 0, led := [(0, 7)], rands := [3, 4] }

/-- An input sample with all four buttons pressed and both switches off. -/
def allButtonsInput : Input := ⟨0, 1, 1, 1, 1⟩

/-- The position is grid-aligned: both coordinates are multiples of `PIXEL_SIZE`. -/
def Aligned (p : Position) : Prop := p.x % PIXEL_SIZE = 0 ∧ p.y % PIXEL_SIZE = 0

instance (p : Position) : Decidable (Aligned p) := by
  unfold Aligned; infer_instance

/-- Facts that hold in every reachable state, whatever the display size, the
inputs, the `rand()` results and the uninitialised contents of the locals. -/
def Inv (g : Game) : Prop :=
  g.snake.WellFormed ∧ 3 ≤ g.snake.length ∧ g.snake.length ≤ (MAX_SNAKE_LENGTH : Int) ∧
  0 ≤ g.score ∧ g.snake.length = min (3 + g.score) (MAX_SNAKE_LENGTH : Int) ∧
  g.game_state ≠ GameState.PAUSED ∧
  g.snake.seg 0 = moveHead g.snake.direction (g.snake.seg 1) ∧
  Aligned g.food.position ∧
  (∀ i : Nat, (i : Int) + 1 < g.snake.length → Aligned (g.snake.seg i)) ∧
  (g.game_state = GameState.RUNNING →
    ∀ i : Nat, (i : Int) + 1 < g.snake.length → g.snake.seg i ≠ g.food.position)

/-- The program start `exampleStart` followed by one iteration with the start
switch set: the game starts, the head steps onto the food at (12,10) and the
snake grows to length 4. -/
def exampleRun : Option Game := exampleStart.bind (runLoop 35 25 [startInput])

/-- Uninitialised contents of the local `snake` that read as zero everywhere. -/
def zeroSnake : Snake := ⟨List.replicate 50 ⟨0, 0⟩, 0, Direction.UP⟩

/-- Uninitialised contents of the local `snake` whose entries hold (1000,1000). -/
def wildSnake : Snake := ⟨List.replicate 50 ⟨1000, 1000⟩, 0, Direction.UP⟩

/-- The run `exampleRun` with zeroed locals: program start on a 35 x 25
display, `rand()` returning 1, 1, then 6, 5 (food at (12,10)), then 1, 1, and
one iteration with the start switch set. -/
def zeroRun : Option Game :=
  (mainStart 35 25 0 zeroSnake ⟨⟨0, 0⟩⟩ [1, 1, 6, 5, 1, 1]).bind (runLoop 35 25 [startInput])

/-- The run `exampleRun` with the locals of `wildSnake`. -/
def wildRun : Option Game :=
  (mainStart 35 25 0 wildSnake ⟨⟨0, 0⟩⟩ [0, 0, 6, 5, 0, 0]).bind (runLoop 35 25 [startInput])

/-- An input sample with only the DOWN button pressed. -/
def downInput : Input := ⟨0, 0, 1, 0, 0⟩

/-- A run on a 13 x 13 display with zeroed locals: the game is started (head
at (12,10)), then the DOWN button takes the head to (12,12); the food stays at
(2,2). -/
def bottomRun : Option Game :=
  (mainStart 13 13 0 zeroSnake ⟨⟨0, 0⟩⟩ [1, 1, 1, 1]).bind
    (runLoop 13 13 [startInput, downInput])

/-! ## Vocabulary for the display claims -/

/-- The `PIXEL_SIZE x PIXEL_SIZE` block at `p` lies entirely inside the display. -/
def BlockInside (W H : Nat) (p : Position) : Prop :=
  p.x + PIXEL_SIZE ≤ W ∧ p.y + PIXEL_SIZE ≤ H

instance (W H : Nat) (p : Position) : Decidable (BlockInside W H p) := by
  unfold BlockInside; infer_instance

/-- The write `w` goes to the word of a pixel (x, y) of the display. -/
def PixelWrite (W H : Nat) (w : Nat × Nat) : Prop :=
  ∃ x y : Nat, x < W ∧ y < H ∧ w.1 = y * W + x

/-- The pending `rand()` results are non-negative, as the C library promises,
and the block of the food lies inside the display. -/
def Fed (W H : Nat) (g : Game) : Prop :=
  (∀ r ∈ g.rands, 0 ≤ r) ∧ BlockInside W H g.food.position

/-- Every write performed so far went to a pixel of the display, every entry
of the segment array from index 1 on holds a block inside the display, and so
does the head while the game is RUNNING. -/
def Safe (W H : Nat) (g : Game) : Prop :=
  (∀ w ∈ g.led, PixelWrite W H w) ∧
  (∀ i : Nat, 1 ≤ i → BlockInside W H (g.snake.seg i)) ∧
  (g.game_state = GameState.RUNNING → BlockInside W H (g.snake.seg 0))

/-- A run on a 14 x 12 display with zeroed locals: program start, then one
iteration with the start switch set; the food is at (2,2). -/
def evenRun : Option Game :=
  (mainStart 14 12 0 zeroSnake ⟨⟨0, 0⟩⟩ [1, 1, 1, 1]).bind (runLoop 14 12 [startInput])

/-- The snake-coloured pixels of the display are exactly the pixels of the
blocks of the segments of index below `length`. -/
def SnakeShown (W H : Nat) (g : Game) : Prop :=
  ∀ x < W, ∀ y < H,
    (ledPixel g.led (y * W + x) = some SNAKE_COLOR ↔
      ∃ i < g.snake.length.toNat, inBlock (g.snake.seg i) x y)

instance (W H : Nat) (g : Game) : Decidable (SnakeShown W H g) := by
  unfold SnakeShown; infer_instance

/-- The segments of index below `length` are pairwise distinct. -/
def SegmentsDistinct (s : Snake) : Prop :=
  ∀ i < s.length.toNat, ∀ j < s.length.toNat, i ≠ j → s.seg i ≠ s.seg j

instance (s : Snake) : Decidable (SegmentsDistinct s) := by
  unfold SegmentsDistinct; infer_instance

/-- The segments of index below `length` lie inside the display. -/
def SegmentsInside (W H : Nat) (s : Snake) : Prop :=
  ∀ i < s.length.toNat, (s.seg i).x < W ∧ (s.seg i).y < H

instance (W H : Nat) (s : Snake) : Decidable (SegmentsInside W H s) := by
  unfold SegmentsInside; infer_instance

/-- A run on a 15 x 12 display with zeroed locals: program start, then one
iteration with the start switch set.  The snake is at (12,10),(10,10),(8,10)
and the food at (2,2). -/
def oddBefore : Option Game :=
  (mainStart 15 12 0 zeroSnake ⟨⟨0, 0⟩⟩ [1, 1, 1, 1]).bind (runLoop 15 12 [startInput])

/-- The run `oddBefore` followed by one iteration with no input: the head
advances to (14,10). -/
def oddAfter : Option Game := oddBefore.bind (loopIteration 15 12 idleInput)

/-- A run on a 16 x 12 display with zeroed locals: program start, then one
iteration with the start switch set.  The snake is at (12,10),(10,10),(8,10)
and the food at (2,2). -/
def wideRun : Option Game :=
  (mainStart 16 12 0 zeroSnake ⟨⟨0, 0⟩⟩ [1, 1, 1, 1]).bind (runLoop 16 12 [startInput])

/-- A run on a 35 x 25 display with zeroed locals: program start, one iteration
with the start switch set, then ten iterations with no input.  The snake is at
(32,10),(30,10),(28,10) and the food at (2,2). -/
def rightEdgeBefore : Option Game :=
  (mainStart 35 25 0 zeroSnake ⟨⟨0, 0⟩⟩ [1, 1, 1, 1]).bind
    (runLoop 35 25 [startInput, idleInput, idleInput, idleInput, idleInput, idleInput,
      idleInput, idleInput, idleInput, idleInput, idleInput])

/-- The run `rightEdgeBefore` followed by one iteration with no input: the
head advances to (34,10), the last column origin the wall check accepts. -/
def rightEdgeAfter : Option Game := rightEdgeBefore.bind (loopIteration 35 25 idleInput)

/-! # Theorems -/

/-! ## Auxiliary facts about the segment array -/

theorem getD_set_eq (l : List Position) (i j : Nat) (a d : Position) :
    (l.set i a).getD j d = if i = j ∧ i < l.length then a else l.getD j d := by
  simp only [List.getD_eq_getElem?_getD, List.getElem?_set]
  by_cases h : i = j
  · subst h
    by_cases h2 : i < l.length
    · simp [h2]
    · have : l.length ≤ i := Nat.le_of_not_lt h2
      simp [h2, List.getElem?_eq_none this]
  · simp [h]

theorem moveSnakeShift_length (n : Nat) (segs : List Position) :
    (moveSnakeShift segs n).length = segs.length := by
  induction n generalizing segs with
  | zero => rfl
  | succ n ih => simp [moveSnakeShift, ih]

theorem moveSnakeShift_getD (n : Nat) (segs : List Position) (hn : n < segs.length) (j : Nat) :
    (moveSnakeShift segs n).getD j ⟨0, 0⟩ =
      if 0 < j ∧ j ≤ n then segs.getD (j - 1) ⟨0, 0⟩ else segs.getD j ⟨0, 0⟩ := by
  induction n generalizing segs with
  | zero =>
    have : ¬ (0 < j ∧ j ≤ 0) := by omega
    rw [moveSnakeShift, if_neg this]
  | succ n ih =>
    have hlen : n < (segs.set (n + 1) (segs.getD n ⟨0, 0⟩)).length := by
      rw [List.length_set]; omega
    rw [moveSnakeShift, ih _ hlen]
    by_cases h1 : 0 < j ∧ j ≤ n
    · have h2 : 0 < j ∧ j ≤ n + 1 := ⟨h1.1, by omega⟩
      have h3 : ¬ (n + 1 = j - 1 ∧ n + 1 < segs.length) := by omega
      rw [if_pos h1, if_pos h2, getD_set_eq, if_neg h3]
    · rw [if_neg h1, getD_set_eq]
      by_cases h4 : j = n + 1
      · subst h4
        have h5 : 0 < n + 1 ∧ n + 1 ≤ n + 1 := by omega
        rw [if_pos ⟨rfl, hn⟩, if_pos h5]
        simp
      · have h6 : ¬ (n + 1 = j ∧ n + 1 < segs.length) := by omega
        have h7 : ¬ (0 < j ∧ j ≤ n + 1) := by omega
        rw [if_neg h6, if_neg h7]

theorem moveSnake_seg (s : Snake) (hlen : (s.length - 1).toNat < s.segments.length) (j : Nat) :
    (moveSnake s).seg j =
      if j = 0 then moveHead s.direction (s.seg 0)
      else if j ≤ (s.length - 1).toNat then s.seg (j - 1) else s.seg j := by
  have h0 : 0 < (moveSnakeShift s.segments (s.length - 1).toNat).length := by
    rw [moveSnakeShift_length]; omega
  simp only [moveSnake, Snake.seg, getD_set_eq, moveSnakeShift_getD _ _ hlen]
  by_cases hj : j = 0
  · subst hj
    have h00 : ¬ (0 < 0 ∧ 0 ≤ (s.length - 1).toNat) := by omega
    rw [if_pos ⟨rfl, h0⟩, if_pos rfl, if_neg h00]
  · have : ¬ (0 = j ∧ 0 < (moveSnakeShift s.segments (s.length - 1).toNat).length) := by omega
    rw [if_neg this, if_neg hj]
    by_cases h : j ≤ (s.length - 1).toNat
    · rw [if_pos ⟨by omega, h⟩, if_pos h]
    · have h2 : ¬ (0 < j ∧ j ≤ (s.length - 1).toNat) := by omega
      rw [if_neg h2, if_neg h]

theorem moveSnake_wellFormed (s : Snake) (h : s.WellFormed) : (moveSnake s).WellFormed := by
  simp [Snake.WellFormed, moveSnake, moveSnakeShift_length] at *
  exact h

/-- C1. For a well formed snake with `1 <= length <= MAX_SNAKE_LENGTH` and any
direction, `moveSnake` copies every segment `i - 1` to `i` for `0 < i < length`,
moves the head by `PIXEL_SIZE` along the direction in 32-bit unsigned
arithmetic with the other coordinate unchanged, and leaves `length`,
`direction` and every entry at index `>= length` as they were. -/
theorem C1_moveSnake_spec (s : Snake) (hwf : s.WellFormed)
    (h1 : 1 ≤ s.length) (h2 : s.length ≤ (MAX_SNAKE_LENGTH : Int)) :
    (∀ i : Nat, 0 < i → (i : Int) < s.length → (moveSnake s).seg i = s.seg (i - 1)) ∧
    (s.direction = Direction.UP →
      ((moveSnake s).seg 0).x = (s.seg 0).x ∧
      ((moveSnake s).seg 0).y = ((s.seg 0).y + 4294967296 - 2) % 4294967296) ∧
    (s.direction = Direction.DOWN →
      ((moveSnake s).seg 0).x = (s.seg 0).x ∧
      ((moveSnake s).seg 0).y = ((s.seg 0).y + 2) % 4294967296) ∧
    (s.direction = Direction.LEFT →
      ((moveSnake s).seg 0).x = ((s.seg 0).x + 4294967296 - 2) % 4294967296 ∧
      ((moveSnake s).seg 0).y = (s.seg 0).y) ∧
    (s.direction = Direction.RIGHT →
      ((moveSnake s).seg 0).x = ((s.seg 0).x + 2) % 4294967296 ∧
      ((moveSnake s).seg 0).y = (s.seg 0).y) ∧
    (moveSnake s).length = s.length ∧
    (moveSnake s).direction = s.direction ∧
    (∀ i : Nat, s.length ≤ (i : Int) → (moveSnake s).seg i = s.seg i) ∧
    (moveSnake s).WellFormed := by
  have hlen : (s.length - 1).toNat < s.segments.length := by
    have := hwf
    simp only [Snake.WellFormed, MAX_SNAKE_LENGTH] at this h2
    omega
  have hhead : (moveSnake s).seg 0 = moveHead s.direction (s.seg 0) := by
    rw [moveSnake_seg s hlen]; simp
  refine ⟨?_, ?_, ?_, ?_, ?_, rfl, rfl, ?_, moveSnake_wellFormed s hwf⟩
  · intro i hi hil
    rw [moveSnake_seg s hlen, if_neg (by omega), if_pos (by omega)]
  · intro hd; rw [hhead, hd]; simp [moveHead, U32, PIXEL_SIZE]
  · intro hd; rw [hhead, hd]; simp [moveHead, U32, PIXEL_SIZE]
  · intro hd; rw [hhead, hd]; simp [moveHead, U32, PIXEL_SIZE]
  · intro hd; rw [hhead, hd]; simp [moveHead, U32, PIXEL_SIZE]
  · intro i hi
    rw [moveSnake_seg s hlen, if_neg (by omega), if_neg (by omega)]


/-- Witness for C1: the snake (10,10),(8,10),(6,10) heading RIGHT becomes
(12,10),(10,10),(8,10). -/
theorem C1_moveSnake_witness :
    exampleSnake.WellFormed ∧ 1 ≤ exampleSnake.length ∧
    exampleSnake.length ≤ (MAX_SNAKE_LENGTH : Int) ∧
    (moveSnake exampleSnake).seg 0 = ⟨12, 10⟩ ∧
    (moveSnake exampleSnake).seg 1 = ⟨10, 10⟩ ∧
    (moveSnake exampleSnake).seg 2 = ⟨8, 10⟩ ∧
    (moveSnake exampleSnake).length = 3 := by
  have h := C1_moveSnake_spec exampleSnake (by decide) (by decide) (by decide)
  refine ⟨by decide, by decide, by decide, ?_, ?_, ?_, ?_⟩
  · have hx := (h.2.2.2.2.1 rfl).1
    have hy := (h.2.2.2.2.1 rfl).2
    have e : ∀ p : Position, p.x = 12 → p.y = 10 → p = ⟨12, 10⟩ := by
      intro p h1 h2; cases p; simp_all
    exact e _ (by rw [hx]; decide) (by rw [hy]; decide)
  · rw [h.1 1 (by decide) (by decide)]; decide
  · rw [h.1 2 (by decide) (by decide)]; decide
  · rw [h.2.2.2.2.2.1]; rfl

theorem checkWallCollision_iff (W H : Nat) (s : Snake) :
    checkWallCollision W H s = true ↔ (W ≤ (s.seg 0).x ∨ H ≤ (s.seg 0).y) := by
  simp [checkWallCollision]

theorem checkSelfCollision_iff (s : Snake) :
    checkSelfCollision s = true ↔
      ∃ i : Nat, 1 ≤ i ∧ (i : Int) < s.length ∧
        (s.seg i).x = (s.seg 0).x ∧ (s.seg i).y = (s.seg 0).y := by
  simp only [checkSelfCollision, List.any_eq_true, List.mem_range'_1, Bool.and_eq_true,
    beq_iff_eq]
  constructor
  · rintro ⟨i, ⟨h1, h2⟩, hx, hy⟩
    exact ⟨i, h1, by omega, hx.symm, hy.symm⟩
  · rintro ⟨i, h1, h2, hx, hy⟩
    exact ⟨i, ⟨h1, by omega⟩, hx.symm, hy.symm⟩

theorem moveSnake_head (s : Snake) (hwf : s.WellFormed)
    (h1 : 1 ≤ s.length) (h2 : s.length ≤ (MAX_SNAKE_LENGTH : Int)) :
    (moveSnake s).seg 0 = moveHead s.direction (s.seg 0) := by
  have hlen : (s.length - 1).toNat < s.segments.length := by
    have := hwf
    simp only [Snake.WellFormed, MAX_SNAKE_LENGTH] at this h2
    omega
  rw [moveSnake_seg s hlen]; simp

/-- C2. `checkWallCollision` is true exactly when the head's x lies outside
`[0, W)` or its y lies outside `[0, H)`.  It is true for a head one block below
0 (stored wrapped, as `2^32 - 2`), also when that head is produced by
`moveSnake` from the left or top edge, for every width and height an `int`
can hold; and it is false for every head inside the display. -/
theorem C2_checkWallCollision_spec (W H : Nat) :
    (∀ s : Snake, checkWallCollision W H s = true ↔
      (¬ (0 ≤ (s.seg 0).x ∧ (s.seg 0).x < W) ∨ ¬ (0 ≤ (s.seg 0).y ∧ (s.seg 0).y < H))) ∧
    (W ≤ 4294967294 → ∀ s : Snake,
      (s.seg 0).x = toU32 (0 - (PIXEL_SIZE : Int)) → checkWallCollision W H s = true) ∧
    (H ≤ 4294967294 → ∀ s : Snake,
      (s.seg 0).y = toU32 (0 - (PIXEL_SIZE : Int)) → checkWallCollision W H s = true) ∧
    (W ≤ 4294967294 → ∀ s : Snake, s.WellFormed → 1 ≤ s.length →
      s.length ≤ (MAX_SNAKE_LENGTH : Int) → s.direction = Direction.LEFT →
      (s.seg 0).x < PIXEL_SIZE → checkWallCollision W H (moveSnake s) = true) ∧
    (H ≤ 4294967294 → ∀ s : Snake, s.WellFormed → 1 ≤ s.length →
      s.length ≤ (MAX_SNAKE_LENGTH : Int) → s.direction = Direction.UP →
      (s.seg 0).y < PIXEL_SIZE → checkWallCollision W H (moveSnake s) = true) ∧
    (∀ s : Snake, (s.seg 0).x < W → (s.seg 0).y < H → checkWallCollision W H s = false) := by
  have hneg : toU32 (0 - (PIXEL_SIZE : Int)) = 4294967294 := by decide
  refine ⟨?_, ?_, ?_, ?_, ?_, ?_⟩
  · intro s
    rw [checkWallCollision_iff]
    constructor
    · rintro (h | h)
      · left; omega
      · right; omega
    · rintro (h | h)
      · left; omega
      · right; omega
  · intro hW s hx
    rw [checkWallCollision_iff, hx, hneg]; left; exact hW
  · intro hH s hy
    rw [checkWallCollision_iff, hy, hneg]; right; exact hH
  · intro hW s hwf h1 h2 hd hx
    rw [checkWallCollision_iff, moveSnake_head s hwf h1 h2, hd]
    left
    simp only [moveHead, U32, PIXEL_SIZE] at hx ⊢
    omega
  · intro hH s hwf h1 h2 hd hy
    rw [checkWallCollision_iff, moveSnake_head s hwf h1 h2, hd]
    right
    simp only [moveHead, U32, PIXEL_SIZE] at hy ⊢
    omega
  · intro s hx hy
    cases hc : checkWallCollision W H s with
    | false => rfl
    | true =>
      rw [checkWallCollision_iff] at hc
      omega

/-- Witness for C2: on a 35 x 25 display the snake with head (0,10) heading
LEFT is reported as a wall collision after one `moveSnake`. -/
theorem C2_checkWallCollision_witness :
    (35 : Nat) ≤ 4294967294 ∧ leftEdgeSnake.WellFormed ∧
    (moveSnake leftEdgeSnake).seg 0 = ⟨4294967294, 10⟩ ∧
    checkWallCollision 35 25 (moveSnake leftEdgeSnake) = true ∧
    checkWallCollision 35 25 leftEdgeSnake = false :=
  ⟨by decide, by decide, by decide,
   (C2_checkWallCollision_spec 35 25).2.2.2.1 (by decide) leftEdgeSnake (by decide) (by decide)
     (by decide) rfl (by decide),
   (C2_checkWallCollision_spec 35 25).2.2.2.2.2 leftEdgeSnake (by decide) (by decide)⟩

/-- C3. For a well formed snake with `1 <= length <= 50`, `checkSelfCollision`
is true exactly when some segment `i` with `1 <= i < length` has the x and y of
segment 0; two snakes of the same length that agree below `length` get the
same answer; and a snake of length 1 never self-collides. -/
theorem C3_checkSelfCollision_spec (s : Snake) (_hwf : s.WellFormed)
    (h1 : 1 ≤ s.length) (_h2 : s.length ≤ (MAX_SNAKE_LENGTH : Int)) :
    (checkSelfCollision s = true ↔
      ∃ i : Nat, 1 ≤ i ∧ (i : Int) < s.length ∧
        (s.seg i).x = (s.seg 0).x ∧ (s.seg i).y = (s.seg 0).y) ∧
    (∀ t : Snake, t.WellFormed → t.length = s.length →
      (∀ i : Nat, (i : Int) < s.length → t.seg i = s.seg i) →
      checkSelfCollision t = checkSelfCollision s) ∧
    (s.length = 1 → checkSelfCollision s = false) := by
  refine ⟨checkSelfCollision_iff s, ?_, ?_⟩
  · intro t _ hlen hagree
    rw [Bool.eq_iff_iff, checkSelfCollision_iff, checkSelfCollision_iff, hlen]
    have h0 : t.seg 0 = s.seg 0 := hagree 0 (by omega)
    constructor
    · rintro ⟨i, hi1, hi2, hx, hy⟩
      rw [hagree i hi2, h0] at hx hy
      exact ⟨i, hi1, hi2, hx, hy⟩
    · rintro ⟨i, hi1, hi2, hx, hy⟩
      refine ⟨i, hi1, hi2, ?_, ?_⟩
      · rw [hagree i hi2, h0]; exact hx
      · rw [hagree i hi2, h0]; exact hy
  · intro hl
    cases hc : checkSelfCollision s with
    | false => rfl
    | true =>
      rw [checkSelfCollision_iff] at hc
      obtain ⟨i, hi1, hi2, _⟩ := hc
      omega

/-- Witness for C3: a snake of length 5 whose head (4,4) equals segment 4
self-collides. -/
theorem C3_checkSelfCollision_witness :
    loopedSnake.WellFormed ∧ 1 ≤ loopedSnake.length ∧
    loopedSnake.length ≤ (MAX_SNAKE_LENGTH : Int) ∧
    checkSelfCollision loopedSnake = true :=
  ⟨by decide, by decide, by decide,
   (C3_checkSelfCollision_spec loopedSnake (by decide) (by decide) (by decide)).1.mpr
     ⟨4, by decide, by decide, by decide, by decide⟩⟩

/-- C4. In the direction update of a RUNNING tick, with exactly one
directional button `b` pressed the direction stays `d` when `b` is the exact
opposite of `d` and becomes `b` for the three other values of `b`; with no
button pressed the direction is unchanged. -/
theorem C4_updateDirection_spec (inp : Input) (d b : Direction) :
    (inp.onlyPressed b → b = d.opposite → updateDirection inp d = d) ∧
    (inp.onlyPressed b → b ≠ d.opposite → updateDirection inp d = b) ∧
    (inp.nonePressed → updateDirection inp d = d) := by
  refine ⟨?_, ?_, ?_⟩
  · rintro ⟨hu, hd, hl, hr⟩ hb
    cases b <;> simp at hu hd hl hr <;> cases d <;>
      simp [Direction.opposite] at hb <;> simp [updateDirection, hu, hd, hl, hr]
  · rintro ⟨hu, hd, hl, hr⟩ hb
    cases b <;> simp at hu hd hl hr <;> cases d <;>
      simp [Direction.opposite] at hb <;> simp [updateDirection, hu, hd, hl, hr]
  · rintro ⟨hu, hd, hl, hr⟩
    simp [updateDirection, hu, hd, hl, hr]

/-- Witness for C4: heading RIGHT, pressing only LEFT keeps RIGHT and pressing
only UP turns the snake UP. -/
theorem C4_updateDirection_witness :
    updateDirection ⟨0, 0, 0, 1, 0⟩ Direction.RIGHT = Direction.RIGHT ∧
    updateDirection ⟨0, 1, 0, 0, 0⟩ Direction.RIGHT = Direction.UP ∧
    updateDirection ⟨0, 0, 0, 0, 0⟩ Direction.RIGHT = Direction.RIGHT :=
  ⟨(C4_updateDirection_spec ⟨0, 0, 0, 1, 0⟩ Direction.RIGHT Direction.LEFT).1
     (by simp [Input.onlyPressed]) rfl,
   (C4_updateDirection_spec ⟨0, 1, 0, 0, 0⟩ Direction.RIGHT Direction.UP).2.1
     (by simp [Input.onlyPressed]) (by decide),
   (C4_updateDirection_spec ⟨0, 0, 0, 0, 0⟩ Direction.RIGHT Direction.UP).2.2
     (by simp [Input.nonePressed])⟩

/-- C10. The growth step never takes `length` past capacity: for `length` in
`1..50` the new length is `length + 1` below 50 and stays 50 at 50, and
neither the segments nor the direction are modified. -/
theorem C10_grow_spec (s : Snake) (h1 : 1 ≤ s.length) (h2 : s.length ≤ (MAX_SNAKE_LENGTH : Int)) :
    (s.length < 50 → (grow s).length = s.length + 1) ∧
    (s.length = 50 → (grow s).length = 50 ∧ grow s = s) ∧
    (grow s).length ≤ (MAX_SNAKE_LENGTH : Int) ∧
    (grow s).segments = s.segments ∧
    (grow s).direction = s.direction := by
  simp only [MAX_SNAKE_LENGTH, Nat.cast_ofNat] at h2
  by_cases h : s.length < 50
  · have e : grow s = { s with length := s.length + 1 } := by
      simp [grow, MAX_SNAKE_LENGTH, h]
    rw [e]
    refine ⟨fun _ => rfl, fun h5 => by omega, ?_, rfl, rfl⟩
    simp only [MAX_SNAKE_LENGTH, Nat.cast_ofNat]
    omega
  · have e : grow s = s := by
      simp [grow, MAX_SNAKE_LENGTH, h]
    rw [e]
    refine ⟨fun h5 => absurd h5 h, fun h5 => ⟨h5, rfl⟩, ?_, rfl, rfl⟩
    simp only [MAX_SNAKE_LENGTH, Nat.cast_ofNat]
    omega

/-- Witness for C10: a snake of length 3 grows to 4 and a snake of length 50
stays at 50. -/
theorem C10_grow_witness :
    (grow exampleSnake).length = 4 ∧ (grow fullSnake).length = 50 :=
  ⟨((C10_grow_spec exampleSnake (by decide) (by decide)).1 (by decide)).trans (by decide),
   ((C10_grow_spec fullSnake (by decide) (by decide)).2.1 rfl).1⟩

theorem foodOnSnake_eq_false_iff (s : Snake) (f : Food) :
    foodOnSnake s f = false ↔
      ∀ i : Nat, (i : Int) < s.length →
        (f.position.x ≠ (s.seg i).x ∨ f.position.y ≠ (s.seg i).y) := by
  rw [← Bool.not_eq_true, foodOnSnake, List.any_eq_true]
  simp only [List.mem_range, Bool.and_eq_true, beq_iff_eq, not_exists, not_and]
  constructor
  · intro h i hi
    by_cases hx : f.position.x = (s.seg i).x
    · right; exact h i (by omega) hx
    · left; exact hx
  · intro h i hi hx
    rcases h i (by omega) with h | h
    · exact absurd hx h
    · exact h

theorem generateFood_some (W H : Nat) (n : Nat) :
    ∀ (rands : List Int) (s : Snake) (f0 : Food) (s' : Snake) (f' : Food) (rest : List Int),
      rands.length ≤ n → generateFood W H rands s f0 = some (s', f', rest) →
      s' = s ∧ foodOnSnake s f' = false ∧ rest.length < rands.length := by
  induction n with
  | zero =>
    intro rands s f0 s' f' rest hn h
    match rands, hn with
    | [], _ => simp [generateFood] at h
  | succ n ih =>
    intro rands s f0 s' f' rest hn h
    match rands, hn, h with
    | [], _, h => simp [generateFood] at h
    | [_], _, h => simp [generateFood] at h
    | r1 :: r2 :: tl, hn, h =>
      rw [generateFood] at h
      split at h
      · exact absurd h (by simp)
      · dsimp only at h
        split at h
        · have hl : tl.length ≤ n := by simp at hn; omega
          obtain ⟨e1, e2, e3⟩ := ih tl s _ s' f' rest hl h
          exact ⟨e1, e2, by simp only [List.length_cons]; omega⟩
        · rename_i hns
          simp only [Option.some.injEq, Prod.mk.injEq] at h
          obtain ⟨e1, e2, e3⟩ := h
          subst e1 e2 e3
          exact ⟨rfl, by simpa using hns, by simp only [List.length_cons]; omega⟩

/-- C5. For a well formed snake with `1 <= length <= 50` and every list of
`rand()` results on which `generateFood` returns, the food it leaves differs
in x or in y from `segments[i]` for every `i < length`, and the snake
(segments, length, direction) is returned unchanged. -/
theorem C5_generateFood_spec (W H : Nat) (rands : List Int) (s : Snake) (f0 : Food)
    (_hwf : s.WellFormed) (_h1 : 1 ≤ s.length) (_h2 : s.length ≤ (MAX_SNAKE_LENGTH : Int))
    (s' : Snake) (f' : Food) (rest : List Int)
    (h : generateFood W H rands s f0 = some (s', f', rest)) :
    (∀ i : Nat, (i : Int) < s.length →
      (f'.position.x ≠ (s.seg i).x ∨ f'.position.y ≠ (s.seg i).y)) ∧
    s'.segments = s.segments ∧ s'.length = s.length ∧ s'.direction = s.direction := by
  obtain ⟨e1, e2, _⟩ := generateFood_some W H rands.length rands s f0 s' f' rest (le_refl _) h
  subst e1
  exact ⟨(foodOnSnake_eq_false_iff _ f').mp e2, rfl, rfl, rfl⟩

/-- Witness for C5: on a 35 x 25 display with `rand()` returning 5, 5, 20, 3
the first sample (10,10) is the head and the second sample (6,6) is kept. -/
theorem C5_generateFood_witness :
    generateFood 35 25 [5, 5, 20, 3] exampleSnake ⟨⟨0, 0⟩⟩ = some (exampleSnake, ⟨⟨6, 6⟩⟩, []) ∧
    ((6 : Nat) ≠ (exampleSnake.seg 0).x ∨ (6 : Nat) ≠ (exampleSnake.seg 0).y) :=
  ⟨by decide,
   (C5_generateFood_spec 35 25 [5, 5, 20, 3] exampleSnake ⟨⟨0, 0⟩⟩ (by decide) (by decide)
     (by decide) exampleSnake ⟨⟨6, 6⟩⟩ [] (by decide)).1 0 (by decide)⟩

theorem position_eq_iff (p q : Position) : p = q ↔ p.x = q.x ∧ p.y = q.y := by
  cases p; cases q; simp

theorem loopIteration_running (W H : Nat) (inp : Input) (g : Game)
    (hrun : g.game_state = GameState.RUNNING) (hsw : inp.switches &&& 3 ≠ 2) :
    loopIteration W H inp g = runningTick W H inp g := by
  simp [loopIteration, switchPhase, hrun, hsw]

theorem paintBlock_eq (W c : Nat) (p : Position) (led : Led) :
    paintBlock W c p led =
      [(pixelIndex W p 1 1, c), (pixelIndex W p 1 0, c),
       (pixelIndex W p 0 1, c), (pixelIndex W p 0 0, c)] ++ led := rfl

theorem grow_seg (s : Snake) (i : Nat) : (grow s).seg i = s.seg i := by
  unfold grow; split <;> rfl

/-- C7. In an iteration that begins RUNNING and takes no reset, when after the
advance the head is outside the display or equals another segment below
`length`: the iteration ends GAME_OVER, `score`, food, `length` and the pending
`rand()` results are unchanged, and the only display writes of the iteration
are the four background writes of `eraseSnakeTail` (so no `drawSnake` and no
`drawFood` write is performed). -/
theorem C7_collision_tick (W H : Nat) (inp : Input) (g : Game) (_hwf : g.snake.WellFormed)
    (_h1 : 1 ≤ g.snake.length) (_h2 : g.snake.length ≤ (MAX_SNAKE_LENGTH : Int))
    (hrun : g.game_state = GameState.RUNNING) (hsw : inp.switches &&& 3 ≠ 2)
    (moved : Snake)
    (hmoved : moved = moveSnake { g.snake with direction := updateDirection inp g.snake.direction })
    (hcol : ¬ ((moved.seg 0).x < W ∧ (moved.seg 0).y < H) ∨
      ∃ i : Nat, 1 ≤ i ∧ (i : Int) < moved.length ∧ moved.seg i = moved.seg 0) :
    ∃ g' : Game, loopIteration W H inp g = some g' ∧
      g'.game_state = GameState.GAME_OVER ∧
      g'.score = g.score ∧ g'.food = g.food ∧ g'.snake.length = g.snake.length ∧
      g'.rands = g.rands ∧
      g'.led = eraseSnakeTail W
        { g.snake with direction := updateDirection inp g.snake.direction } g.led ∧
      (∃ ws : Led, g'.led = ws ++ g.led ∧ ws.length = 4 ∧
        ∀ w ∈ ws, w.2 = BACKGROUND_COLOR ∧ w.2 ≠ SNAKE_COLOR ∧ w.2 ≠ FOOD_COLOR) := by
  have hc : (checkWallCollision W H moved || checkSelfCollision moved) = true := by
    rw [Bool.or_eq_true, checkWallCollision_iff, checkSelfCollision_iff]
    rcases hcol with h | ⟨i, hi1, hi2, he⟩
    · left; omega
    · right; exact ⟨i, hi1, hi2, ((position_eq_iff _ _).mp he).1, ((position_eq_iff _ _).mp he).2⟩
  refine ⟨{ g with snake := moved, game_state := GameState.GAME_OVER,
                   led := eraseSnakeTail W
                     { g.snake with direction := updateDirection inp g.snake.direction } g.led },
    ?_, rfl, rfl, rfl, ?_, rfl, rfl, ?_⟩
  · rw [loopIteration_running W H inp g hrun hsw]
    simp only [runningTick, ← hmoved, hc]
    simp
  · show moved.length = g.snake.length
    rw [hmoved]; rfl
  · refine ⟨_, paintBlock_eq W BACKGROUND_COLOR _ g.led, rfl, ?_⟩
    intro w hw
    simp only [List.mem_cons, List.mem_singleton, List.not_mem_nil, or_false] at hw
    have hb : BACKGROUND_COLOR ≠ SNAKE_COLOR ∧ BACKGROUND_COLOR ≠ FOOD_COLOR := by decide
    rcases hw with h | h | h | h <;> subst h <;> exact ⟨rfl, hb.1, hb.2⟩

/-- Witness for C7: a length-3 snake with head x = 0 heading LEFT on a 35 x 25
display ends the iteration in GAME_OVER with score and food untouched. -/
theorem C7_collision_tick_witness :
    (moveSnake crashingGame.snake).seg 0 = ⟨4294967294, 10⟩ ∧
    ∃ g' : Game, loopIteration 35 25 idleInput crashingGame = some g' ∧
      g'.game_state = GameState.GAME_OVER ∧ g'.score = 5 ∧ g'.food = ⟨⟨20, 20⟩⟩ ∧
      g'.snake.length = 3 := by
  obtain ⟨g', h1, h2, h3, h4, h5, _⟩ :=
    C7_collision_tick 35 25 idleInput crashingGame (by decide) (by decide) (by decide) rfl
      (by decide)
      (moveSnake { crashingGame.snake with
        direction := updateDirection idleInput crashingGame.snake.direction }) rfl
      (Or.inl (by decide))
  exact ⟨by decide, g', h1, h2, h3, h4, h5⟩

/-! ## Auxiliary facts about the display trace -/

theorem ledPixel_cons (i c : Nat) (led : Led) (idx : Nat) :
    ledPixel ((i, c) :: led) idx = if i = idx then some c else ledPixel led idx := by
  by_cases h : i = idx
  · simp [ledPixel, List.find?_cons, h]
  · simp [ledPixel, List.find?_cons, h]

theorem ledPixel_foldl {α : Type} (f : α → Nat) (c : Nat) (l : List α) (led : Led) (idx : Nat) :
    ledPixel (l.foldl (fun led a => (f a, c) :: led) led) idx =
      if ∃ a ∈ l, f a = idx then some c else ledPixel led idx := by
  induction l generalizing led with
  | nil => simp
  | cons a l ih =>
    rw [List.foldl_cons, ih, ledPixel_cons]
    by_cases h1 : ∃ b ∈ l, f b = idx
    · have h2 : ∃ b ∈ a :: l, f b = idx := by
        obtain ⟨b, hb, e⟩ := h1
        exact ⟨b, List.mem_cons_of_mem _ hb, e⟩
      rw [if_pos h1, if_pos h2]
    · rw [if_neg h1]
      by_cases h3 : f a = idx
      · have h2 : ∃ b ∈ a :: l, f b = idx := ⟨a, List.mem_cons_self _ _, h3⟩
        rw [if_pos h3, if_pos h2]
      · have h2 : ¬ ∃ b ∈ a :: l, f b = idx := by
          rintro ⟨b, hb, e⟩
          rcases List.mem_cons.mp hb with hb | hb
          · subst hb; exact h3 e
          · exact h1 ⟨b, hb, e⟩
        rw [if_neg h3, if_neg h2]

theorem ledPixel_foldl_foldl {α β : Type} (f : α → β → Nat) (c : Nat) (l : List α) (m : List β)
    (led : Led) (idx : Nat) :
    ledPixel (l.foldl (fun led a => m.foldl (fun led b => (f a b, c) :: led) led) led) idx =
      if ∃ a ∈ l, ∃ b ∈ m, f a b = idx then some c else ledPixel led idx := by
  induction l generalizing led with
  | nil => simp
  | cons a l ih =>
    rw [List.foldl_cons, ih, ledPixel_foldl]
    by_cases h1 : ∃ a' ∈ l, ∃ b ∈ m, f a' b = idx
    · have h2 : ∃ a' ∈ a :: l, ∃ b ∈ m, f a' b = idx := by
        obtain ⟨a', ha, e⟩ := h1
        exact ⟨a', List.mem_cons_of_mem _ ha, e⟩
      rw [if_pos h1, if_pos h2]
    · rw [if_neg h1]
      by_cases h3 : ∃ b ∈ m, f a b = idx
      · have h2 : ∃ a' ∈ a :: l, ∃ b ∈ m, f a' b = idx := ⟨a, List.mem_cons_self _ _, h3⟩
        rw [if_pos h3, if_pos h2]
      · have h2 : ¬ ∃ a' ∈ a :: l, ∃ b ∈ m, f a' b = idx := by
          rintro ⟨a', ha, e⟩
          rcases List.mem_cons.mp ha with ha | ha
          · subst ha; exact h3 e
          · exact h1 ⟨a', ha, e⟩
        rw [if_neg h3, if_neg h2]

theorem ledPixel_paintBlock (W c : Nat) (p : Position) (led : Led) (idx : Nat) :
    ledPixel (paintBlock W c p led) idx =
      if ∃ px ∈ List.range PIXEL_SIZE, ∃ py ∈ List.range PIXEL_SIZE, pixelIndex W p px py = idx
      then some c else ledPixel led idx :=
  ledPixel_foldl_foldl (fun px py => pixelIndex W p px py) c _ _ led idx

theorem ledPixel_clearBoard (W H : Nat) (led : Led) (idx : Nat) :
    ledPixel (clearBoard W H led) idx =
      if ∃ i ∈ List.range W, ∃ j ∈ List.range H, j * W + i = idx
      then some BACKGROUND_COLOR else ledPixel led idx :=
  ledPixel_foldl_foldl (fun i j => j * W + i) BACKGROUND_COLOR _ _ led idx

theorem index_inj (W x y x' y' : Nat) (hx : x < W) (hx' : x' < W)
    (h : y * W + x = y' * W + x') : x = x' ∧ y = y' := by
  have hW : 0 < W := by omega
  have e1 : (y * W + x) % W = x := by
    rw [Nat.add_comm, Nat.add_mul_mod_self_right, Nat.mod_eq_of_lt hx]
  have e2 : (y' * W + x') % W = x' := by
    rw [Nat.add_comm, Nat.add_mul_mod_self_right, Nat.mod_eq_of_lt hx']
  have e3 : (y * W + x) / W = y := by
    rw [Nat.add_comm, Nat.add_mul_div_right _ _ hW, Nat.div_eq_of_lt hx, Nat.zero_add]
  have e4 : (y' * W + x') / W = y' := by
    rw [Nat.add_comm, Nat.add_mul_div_right _ _ hW, Nat.div_eq_of_lt hx', Nat.zero_add]
  rw [h] at e1 e3
  exact ⟨e1.symm.trans e2, e3.symm.trans e4⟩

theorem pixelIndex_inside (W H : Nat) (p : Position) (px py : Nat)
    (hWH : W * H < 4294967296) (hx : p.x + px < W) (hy : p.y + py < H) :
    pixelIndex W p px py = (p.y + py) * W + (p.x + px) := by
  have h1 : (p.y + py + 1) * W ≤ W * H := by
    rw [Nat.mul_comm W H]; exact Nat.mul_le_mul_right W hy
  have h2 : (p.y + py + 1) * W = (p.y + py) * W + W := by ring
  have hWpos : 0 < W := by omega
  have h3 : p.y + py + 1 ≤ (p.y + py + 1) * W := Nat.le_mul_of_pos_right _ hWpos
  have h4 : H ≤ W * H := Nat.le_mul_of_pos_left _ hWpos
  have h5 : W ≤ W * H := Nat.le_mul_of_pos_right _ (by omega)
  have hW : W < 4294967296 := by omega
  unfold pixelIndex U32
  rw [Nat.mod_eq_of_lt (show p.y + py < 4294967296 by omega), Nat.mod_eq_of_lt hW,
    Nat.mod_eq_of_lt (show (p.y + py) * W < 4294967296 by omega),
    Nat.mod_eq_of_lt (show p.x + px < 4294967296 by omega)]

theorem block_index_iff (W H : Nat) (p : Position) (x y : Nat)
    (hWH : W * H < 4294967296) (hpx : p.x + 1 < W) (hpy : p.y + 1 < H) (hx : x < W) :
    (∃ px ∈ List.range PIXEL_SIZE, ∃ py ∈ List.range PIXEL_SIZE,
      pixelIndex W p px py = y * W + x) ↔ inBlock p x y := by
  simp only [List.mem_range, PIXEL_SIZE, inBlock]
  constructor
  · rintro ⟨px, hpx2, py, hpy2, e⟩
    rw [pixelIndex_inside W H p px py hWH (by omega) (by omega)] at e
    obtain ⟨e1, e2⟩ := index_inj W _ _ _ _ (by omega) hx e
    omega
  · rintro ⟨h1, h2, h3, h4⟩
    refine ⟨x - p.x, by omega, y - p.y, by omega, ?_⟩
    rw [pixelIndex_inside W H p _ _ hWH (by omega) (by omega)]
    have e1 : p.x + (x - p.x) = x := by omega
    have e2 : p.y + (y - p.y) = y := by omega
    rw [e1, e2]

theorem ledPixel_paintBlock_inside (W H c : Nat) (p : Position) (led : Led) (x y : Nat)
    (hWH : W * H < 4294967296) (hpx : p.x + 1 < W) (hpy : p.y + 1 < H) (hx : x < W) :
    ledPixel (paintBlock W c p led) (y * W + x) =
      if inBlock p x y then some c else ledPixel led (y * W + x) := by
  rw [ledPixel_paintBlock]
  have key := block_index_iff W H p x y hWH hpx hpy hx
  by_cases h : inBlock p x y
  · rw [if_pos h, if_pos (key.mpr h)]
  · rw [if_neg h, if_neg (fun h' => h (key.mp h'))]

theorem ledPixel_clearBoard_inside (W H : Nat) (led : Led) (x y : Nat) (hx : x < W) (hy : y < H) :
    ledPixel (clearBoard W H led) (y * W + x) = some BACKGROUND_COLOR := by
  rw [ledPixel_clearBoard, if_pos]
  exact ⟨x, List.mem_range.mpr hx, y, List.mem_range.mpr hy, rfl⟩

theorem ledPixel_drawSnake (W : Nat) (s : Snake) (led : Led) (idx : Nat) :
    ((∃ i : Nat, (i : Int) < s.length ∧ ∃ px ∈ List.range PIXEL_SIZE,
        ∃ py ∈ List.range PIXEL_SIZE, pixelIndex W (s.seg i) px py = idx) →
      ledPixel (drawSnake W s led) idx = some SNAKE_COLOR) ∧
    ((¬ ∃ i : Nat, (i : Int) < s.length ∧ ∃ px ∈ List.range PIXEL_SIZE,
        ∃ py ∈ List.range PIXEL_SIZE, pixelIndex W (s.seg i) px py = idx) →
      ledPixel (drawSnake W s led) idx = ledPixel led idx) := by
  have gen : ∀ (l : List Nat) (led : Led),
      ((∃ i ∈ l, ∃ px ∈ List.range PIXEL_SIZE,
          ∃ py ∈ List.range PIXEL_SIZE, pixelIndex W (s.seg i) px py = idx) →
        ledPixel (l.foldl (fun led i => paintBlock W SNAKE_COLOR (s.seg i) led) led) idx
          = some SNAKE_COLOR) ∧
      ((¬ ∃ i ∈ l, ∃ px ∈ List.range PIXEL_SIZE,
          ∃ py ∈ List.range PIXEL_SIZE, pixelIndex W (s.seg i) px py = idx) →
        ledPixel (l.foldl (fun led i => paintBlock W SNAKE_COLOR (s.seg i) led) led) idx
          = ledPixel led idx) := by
    intro l
    induction l with
    | nil => intro led; simp
    | cons a l ih =>
      intro led
      rw [List.foldl_cons]
      by_cases h1 : ∃ i ∈ l, ∃ px ∈ List.range PIXEL_SIZE,
          ∃ py ∈ List.range PIXEL_SIZE, pixelIndex W (s.seg i) px py = idx
      · refine ⟨fun _ => (ih _).1 h1, fun h => ?_⟩
        obtain ⟨i, hi, e⟩ := h1
        exact absurd ⟨i, List.mem_cons_of_mem _ hi, e⟩ h
      · constructor
        · rintro ⟨i, hi, e⟩
          rcases List.mem_cons.mp hi with hi | hi
          · subst hi
            rw [(ih _).2 h1, ledPixel_paintBlock, if_pos e]
          · exact absurd ⟨i, hi, e⟩ h1
        · intro h
          have h3 : ¬ ∃ px ∈ List.range PIXEL_SIZE, ∃ py ∈ List.range PIXEL_SIZE,
              pixelIndex W (s.seg a) px py = idx :=
            fun e => h ⟨a, List.mem_cons_self _ _, e⟩
          rw [(ih _).2 h1, ledPixel_paintBlock, if_neg h3]
  have hiff : (∃ i : Nat, (i : Int) < s.length ∧ ∃ px ∈ List.range PIXEL_SIZE,
        ∃ py ∈ List.range PIXEL_SIZE, pixelIndex W (s.seg i) px py = idx) ↔
      (∃ i ∈ List.range s.length.toNat, ∃ px ∈ List.range PIXEL_SIZE,
        ∃ py ∈ List.range PIXEL_SIZE, pixelIndex W (s.seg i) px py = idx) := by
    constructor
    · rintro ⟨i, hi, e⟩
      exact ⟨i, List.mem_range.mpr (by omega), e⟩
    · rintro ⟨i, hi, e⟩
      exact ⟨i, by have := List.mem_range.mp hi; omega, e⟩
  rw [hiff]
  exact gen _ led

theorem ledPixel_drawSnake_inside (W H : Nat) (s : Snake) (led : Led) (x y : Nat)
    (hWH : W * H < 4294967296) (hx : x < W)
    (hin : ∀ i : Nat, (i : Int) < s.length → (s.seg i).x + 1 < W ∧ (s.seg i).y + 1 < H) :
    ((∃ i : Nat, (i : Int) < s.length ∧ inBlock (s.seg i) x y) →
      ledPixel (drawSnake W s led) (y * W + x) = some SNAKE_COLOR) ∧
    ((¬ ∃ i : Nat, (i : Int) < s.length ∧ inBlock (s.seg i) x y) →
      ledPixel (drawSnake W s led) (y * W + x) = ledPixel led (y * W + x)) := by
  have hiff : (∃ i : Nat, (i : Int) < s.length ∧ ∃ px ∈ List.range PIXEL_SIZE,
        ∃ py ∈ List.range PIXEL_SIZE, pixelIndex W (s.seg i) px py = y * W + x) ↔
      (∃ i : Nat, (i : Int) < s.length ∧ inBlock (s.seg i) x y) := by
    constructor
    · rintro ⟨i, hi, e⟩
      exact ⟨i, hi, (block_index_iff W H _ x y hWH (hin i hi).1 (hin i hi).2 hx).mp e⟩
    · rintro ⟨i, hi, e⟩
      exact ⟨i, hi, (block_index_iff W H _ x y hWH (hin i hi).1 (hin i hi).2 hx).mpr e⟩
  rw [← hiff]
  exact ledPixel_drawSnake W s led (y * W + x)

theorem initSnake_segments (s : Snake) :
    (initSnake s).segments = ((s.segments.set 0 ⟨10, 10⟩).set 1 ⟨8, 10⟩).set 2 ⟨6, 10⟩ := rfl

theorem initSnake_seg (s : Snake) (hwf : s.WellFormed) :
    (initSnake s).seg 0 = ⟨10, 10⟩ ∧ (initSnake s).seg 1 = ⟨8, 10⟩ ∧
    (initSnake s).seg 2 = ⟨6, 10⟩ := by
  have hl : s.segments.length = 50 := hwf
  simp only [Snake.seg, initSnake_segments, getD_set_eq, List.length_set, hl]
  simp

theorem generateFood_sample (W H : Nat) (n : Nat) :
    ∀ (rands : List Int) (s : Snake) (f0 : Food) (s' : Snake) (f' : Food) (rest : List Int),
      rands.length ≤ n → generateFood W H rands s f0 = some (s', f', rest) →
      W / PIXEL_SIZE ≠ 0 ∧ H / PIXEL_SIZE ≠ 0 ∧
      ∃ r1 ∈ rands, ∃ r2 ∈ rands,
        f'.position.x = toU32 (Int.tmod r1 ((W / PIXEL_SIZE : Nat) : Int) * (PIXEL_SIZE : Int)) ∧
        f'.position.y = toU32 (Int.tmod r2 ((H / PIXEL_SIZE : Nat) : Int) * (PIXEL_SIZE : Int)) := by
  induction n with
  | zero =>
    intro rands s f0 s' f' rest hn h
    match rands, hn with
    | [], _ => simp [generateFood] at h
  | succ n ih =>
    intro rands s f0 s' f' rest hn h
    match rands, hn, h with
    | [], _, h => simp [generateFood] at h
    | [_], _, h => simp [generateFood] at h
    | r1 :: r2 :: tl, hn, h =>
      rw [generateFood] at h
      split at h
      · exact absurd h (by simp)
      · rename_i hz
        dsimp only at h
        split at h
        · have hl : tl.length ≤ n := by simp at hn; omega
          obtain ⟨e1, e2, q1, hq1, q2, hq2, e3⟩ := ih tl s _ s' f' rest hl h
          exact ⟨e1, e2, q1, List.mem_cons_of_mem _ (List.mem_cons_of_mem _ hq1),
            q2, List.mem_cons_of_mem _ (List.mem_cons_of_mem _ hq2), e3⟩
        · simp only [Option.some.injEq, Prod.mk.injEq] at h
          obtain ⟨_, e2, _⟩ := h
          subst e2
          refine ⟨fun h0 => hz (Or.inl h0), fun h0 => hz (Or.inr h0), r1, List.mem_cons_self _ _,
            r2, List.mem_cons_of_mem _ (List.mem_cons_self _ _), rfl, rfl⟩

theorem sample_bound (r : Int) (W : Nat) (hr : 0 ≤ r) (hW : W < 4294967296)
    (h0 : W / PIXEL_SIZE ≠ 0) :
    toU32 (Int.tmod r ((W / PIXEL_SIZE : Nat) : Int) * (PIXEL_SIZE : Int)) + 1 < W ∧
    toU32 (Int.tmod r ((W / PIXEL_SIZE : Nat) : Int) * (PIXEL_SIZE : Int)) % 2 = 0 := by
  simp only [PIXEL_SIZE] at h0 ⊢
  have hb : (0 : Int) < ((W / 2 : Nat) : Int) := by omega
  rw [Int.tmod_eq_emod hr (le_of_lt hb)]
  have h1 := Int.emod_nonneg r (ne_of_gt hb)
  have h2 := Int.emod_lt_of_pos r hb
  generalize r % ((W / 2 : Nat) : Int) = k at h1 h2
  unfold toU32 U32
  omega

/-- C8 as stated fails: with the reset switch set together with the start
switch (register value 3) a RUNNING game is not reset.  The iteration runs an
ordinary tick: the state stays RUNNING, the score stays 5 and the head
advances to (12,10). -/
theorem C8_reset_with_start_set_counterexample :
    startAndResetInput.switches &&& 2 ≠ 0 ∧
    (loopIteration 35 25 startAndResetInput cruisingGame).map
        (fun g => (g.game_state, g.score, g.snake.seg 0, g.food)) =
      some (GameState.RUNNING, 5, ⟨12, 10⟩, ⟨⟨20, 20⟩⟩) := by
  decide

/-- C8 (amended). For every game state and every snake, food and score, an
iteration in which the two low switch bits read exactly `0x02` (reset set,
start clear) and food placement returns ends with state GAME_OVER, score 0 and
the snake re-initialised to length 3 heading RIGHT at (10,10),(8,10),(6,10).
On a display that holds the start position (`W >= 12`, `H >= 12`,
`W * H < 2^32`) and with non-negative `rand()` results, every pixel of the
display then shows the food colour inside the food block, the snake colour
inside the three snake blocks and the background colour everywhere else. -/
theorem C8_reset_iteration (W H : Nat) (inp : Input) (g : Game) (hwf : g.snake.WellFormed)
    (hsw : inp.switches &&& 3 = 2)
    (s' : Snake) (f' : Food) (rest : List Int)
    (hgen : generateFood W H g.rands (initSnake g.snake) g.food = some (s', f', rest)) :
    ∃ g' : Game, loopIteration W H inp g = some g' ∧
      g'.game_state = GameState.GAME_OVER ∧ g'.score = 0 ∧
      g'.snake.length = 3 ∧ g'.snake.direction = Direction.RIGHT ∧
      g'.snake.seg 0 = ⟨10, 10⟩ ∧ g'.snake.seg 1 = ⟨8, 10⟩ ∧ g'.snake.seg 2 = ⟨6, 10⟩ ∧
      g'.food = f' ∧
      (12 ≤ W → 12 ≤ H → W * H < 4294967296 → (∀ r ∈ g.rands, 0 ≤ r) →
        ∀ x y : Nat, x < W → y < H →
          (inBlock g'.food.position x y → ledPixel g'.led (y * W + x) = some FOOD_COLOR) ∧
          (¬ inBlock g'.food.position x y →
            (∃ i : Nat, (i : Int) < g'.snake.length ∧ inBlock (g'.snake.seg i) x y) →
            ledPixel g'.led (y * W + x) = some SNAKE_COLOR) ∧
          (¬ inBlock g'.food.position x y →
            (¬ ∃ i : Nat, (i : Int) < g'.snake.length ∧ inBlock (g'.snake.seg i) x y) →
            ledPixel g'.led (y * W + x) = some BACKGROUND_COLOR)) := by
  obtain ⟨e1, _, _⟩ :=
    generateFood_some W H g.rands.length g.rands _ g.food s' f' rest (le_refl _) hgen
  obtain ⟨hs0, hs1, hs2⟩ := initSnake_seg g.snake hwf
  refine ⟨{ g with game_state := GameState.GAME_OVER, snake := s', food := f', rands := rest,
                   led := drawFood W f' (drawSnake W s' (clearBoard W H g.led)), score := 0 },
    ?_, rfl, rfl, ?_, ?_, ?_, ?_, ?_, rfl, ?_⟩
  · simp [loopIteration, switchPhase, hsw, hgen]
  · show s'.length = 3
    rw [e1]; rfl
  · show s'.direction = Direction.RIGHT
    rw [e1]; rfl
  · show s'.seg 0 = _
    rw [e1]; exact hs0
  · show s'.seg 1 = _
    rw [e1]; exact hs1
  · show s'.seg 2 = _
    rw [e1]; exact hs2
  · intro hW hH hWH hr x y hx hy
    show (inBlock f'.position x y →
        ledPixel (drawFood W f' (drawSnake W s' (clearBoard W H g.led))) (y * W + x)
          = some FOOD_COLOR) ∧
      (¬ inBlock f'.position x y →
        (∃ i : Nat, (i : Int) < s'.length ∧ inBlock (s'.seg i) x y) →
        ledPixel (drawFood W f' (drawSnake W s' (clearBoard W H g.led))) (y * W + x)
          = some SNAKE_COLOR) ∧
      (¬ inBlock f'.position x y →
        (¬ ∃ i : Nat, (i : Int) < s'.length ∧ inBlock (s'.seg i) x y) →
        ledPixel (drawFood W f' (drawSnake W s' (clearBoard W H g.led))) (y * W + x)
          = some BACKGROUND_COLOR)
    have hWlt : W < 4294967296 := by
      have : W ≤ W * H := Nat.le_mul_of_pos_right _ (by omega)
      omega
    have hHlt : H < 4294967296 := by
      have : H ≤ W * H := Nat.le_mul_of_pos_left _ (by omega)
      omega
    obtain ⟨hw0, hh0, r1, hr1, r2, hr2, ex, ey⟩ :=
      generateFood_sample W H g.rands.length g.rands _ g.food s' f' rest (le_refl _) hgen
    have hfx : f'.position.x + 1 < W := by
      rw [ex]; exact (sample_bound r1 W (hr r1 hr1) hWlt hw0).1
    have hfy : f'.position.y + 1 < H := by
      rw [ey]; exact (sample_bound r2 H (hr r2 hr2) hHlt hh0).1
    have hin : ∀ i : Nat, (i : Int) < s'.length →
        (s'.seg i).x + 1 < W ∧ (s'.seg i).y + 1 < H := by
      intro i hi
      rw [e1] at hi ⊢
      have hi3 : (i : Int) < 3 := hi
      have : i = 0 ∨ i = 1 ∨ i = 2 := by omega
      rcases this with h | h | h <;> subst h
      · rw [hs0]; constructor <;> (dsimp only; omega)
      · rw [hs1]; constructor <;> (dsimp only; omega)
      · rw [hs2]; constructor <;> (dsimp only; omega)
    have hds := ledPixel_drawSnake_inside W H s' (clearBoard W H g.led) x y hWH hx hin
    have hdf := ledPixel_paintBlock_inside W H FOOD_COLOR f'.position
      (drawSnake W s' (clearBoard W H g.led)) x y hWH hfx hfy hx
    refine ⟨fun hb => ?_, fun hb hsn => ?_, fun hb hsn => ?_⟩
    · rw [drawFood, hdf, if_pos hb]
    · rw [drawFood, hdf, if_neg hb, hds.1 hsn]
    · rw [drawFood, hdf, if_neg hb, hds.2 hsn, ledPixel_clearBoard_inside W H _ x y hx hy]

/-- Witness for C8 (amended): resetting the RUNNING game `cruisingGame` on a
35 x 25 display gives GAME_OVER, score 0, the start snake, food at (6,8), and
a background pixel at (0,0). -/
theorem C8_reset_iteration_witness :
    resetInput.switches &&& 3 = 2 ∧
    ∃ g' : Game, loopIteration 35 25 resetInput cruisingGame = some g' ∧
      g'.game_state = GameState.GAME_OVER ∧ g'.score = 0 ∧ g'.snake.length = 3 ∧
      g'.snake.seg 0 = ⟨10, 10⟩ ∧ g'.food = ⟨⟨6, 8⟩⟩ ∧
      ledPixel g'.led (0 * 35 + 0) = some BACKGROUND_COLOR := by
  obtain ⟨g', h1, h2, h3, h4, _, h6, h7, h8, h9, h10⟩ :=
    C8_reset_iteration 35 25 resetInput cruisingGame (by decide) (by decide)
      (initSnake exampleSnake) ⟨⟨6, 8⟩⟩ [] (by decide)
  refine ⟨by decide, g', h1, h2, h3, h4, h6, h9, ?_⟩
  have hp := (h10 (by decide) (by decide) (by decide) (by decide) 0 0 (by decide)
    (by decide)).2.2
  apply hp
  · rw [h9]; decide
  · rintro ⟨i, hi, hb⟩
    rw [h4] at hi
    have : i = 0 ∨ i = 1 ∨ i = 2 := by omega
    rcases this with h | h | h <;> subst h
    · rw [h6] at hb; exact absurd hb (by decide)
    · rw [h7] at hb; exact absurd hb (by decide)
    · rw [h8] at hb; exact absurd hb (by decide)

/-- C9, evaluation at the failing input.  On a 14 x 12 display the start switch
reads 1 at the startup sample and in every iteration.  The first iteration
starts the game although the switch was already set at the previous sample;
the second ends in GAME_OVER at the right wall; the third, with the switch
merely still held, starts the game again. -/
theorem C9_start_is_level_triggered :
    (mainStart 14 12 1 garbageSnake ⟨⟨0, 0⟩⟩ [0, 0, 0, 0, 0, 0]).map
        (fun g => (g.game_state, g.previous_switch_state)) =
      some (GameState.GAME_OVER, 1) ∧
    ((mainStart 14 12 1 garbageSnake ⟨⟨0, 0⟩⟩ [0, 0, 0, 0, 0, 0]).bind
        (runLoop 14 12 [startInput])).map (fun g => g.game_state) =
      some GameState.RUNNING ∧
    ((mainStart 14 12 1 garbageSnake ⟨⟨0, 0⟩⟩ [0, 0, 0, 0, 0, 0]).bind
        (runLoop 14 12 [startInput, startInput])).map (fun g => g.game_state) =
      some GameState.GAME_OVER ∧
    ((mainStart 14 12 1 garbageSnake ⟨⟨0, 0⟩⟩ [0, 0, 0, 0, 0, 0]).bind
        (runLoop 14 12 [startInput, startInput, startInput])).map (fun g => g.game_state) =
      some GameState.RUNNING := by
  refine ⟨by decide, by decide, by decide, by decide⟩

/-- On a display narrower than the start position the reset leaves a snake
coloured pixel outside every snake block: with `W = 4` the write for pixel
(10,10) lands on word 50, which is pixel (2,12). -/
theorem narrow_display_reset_pixel :
    (loopIteration 4 16 resetInput cruisingGame).map
        (fun g => (ledPixel g.led (12 * 4 + 2), g.food,
          decide (inBlock (g.snake.seg 0) 2 12 ∨ inBlock (g.snake.seg 1) 2 12 ∨
            inBlock (g.snake.seg 2) 2 12))) =
      some (some SNAKE_COLOR, ⟨⟨2, 8⟩⟩, false) := by
  decide

/-! ## Initialisation, idle iterations and food sampling -/

/-- C11. For every prior content of a (well formed) snake structure,
`initSnake` leaves `length = 3`, `direction = RIGHT` and
`segments[i] = (START_X - i * PIXEL_SIZE, START_Y)` for `i = 0, 1, 2`, that is
(10,10), (8,10), (6,10): a horizontal line whose head is the start coordinate
and whose consecutive segments are one grid block apart.  The array keeps its
size. -/
theorem C11_initSnake_spec (s : Snake) (hwf : s.WellFormed) :
    (initSnake s).length = 3 ∧ (initSnake s).direction = Direction.RIGHT ∧
    (∀ i : Nat, i < 3 →
      (initSnake s).seg i = ⟨toU32 ((START_X : Int) - (i : Int) * (PIXEL_SIZE : Int)), START_Y⟩) ∧
    (initSnake s).seg 0 = ⟨10, 10⟩ ∧ (initSnake s).seg 1 = ⟨8, 10⟩ ∧
    (initSnake s).seg 2 = ⟨6, 10⟩ ∧
    (∀ i : Nat, i < 2 →
      ((initSnake s).seg i).x = ((initSnake s).seg (i + 1)).x + PIXEL_SIZE ∧
      ((initSnake s).seg i).y = ((initSnake s).seg (i + 1)).y) ∧
    (initSnake s).WellFormed := by
  obtain ⟨h0, h1, h2⟩ := initSnake_seg s hwf
  refine ⟨rfl, rfl, ?_, h0, h1, h2, ?_, ?_⟩
  · intro i hi
    have : i = 0 ∨ i = 1 ∨ i = 2 := by omega
    rcases this with h | h | h <;> subst h
    · rw [h0]; decide
    · rw [h1]; decide
    · rw [h2]; decide
  · intro i hi
    have : i = 0 ∨ i = 1 := by omega
    rcases this with h | h <;> subst h
    · rw [h0, h1]; decide
    · rw [h1, h2]; decide
  · have hl : s.segments.length = MAX_SNAKE_LENGTH := hwf
    simp [Snake.WellFormed, initSnake_segments, hl]

/-- Witness for C11: the array full of (7,7) with length 9 heading UP is
re-initialised to (10,10),(8,10),(6,10), length 3, heading RIGHT. -/
theorem C11_initSnake_witness :
    garbageSnake.WellFormed ∧ (initSnake garbageSnake).length = 3 ∧
    (initSnake garbageSnake).direction = Direction.RIGHT ∧
    (initSnake garbageSnake).seg 0 = ⟨10, 10⟩ ∧ (initSnake garbageSnake).seg 1 = ⟨8, 10⟩ ∧
    (initSnake garbageSnake).seg 2 = ⟨6, 10⟩ :=
  ⟨by decide, (C11_initSnake_spec garbageSnake (by decide)).1,
   (C11_initSnake_spec garbageSnake (by decide)).2.1,
   (C11_initSnake_spec garbageSnake (by decide)).2.2.2.1,
   (C11_initSnake_spec garbageSnake (by decide)).2.2.2.2.1,
   (C11_initSnake_spec garbageSnake (by decide)).2.2.2.2.2.1⟩

/-- C16. An iteration that begins in GAME_OVER or PAUSED and takes neither the
reset branch (switch value not `0x02`) nor the start transition (switch value
not `0x01` while in GAME_OVER) returns the state it was given: snake, food,
score, game state, display trace and pending `rand()` results are all
unchanged, whatever the directional registers read. -/
theorem C16_idle_iteration (W H : Nat) (inp : Input) (g : Game)
    (hst : g.game_state = GameState.GAME_OVER ∨ g.game_state = GameState.PAUSED)
    (hreset : inp.switches &&& 3 ≠ 2)
    (hstart : ¬ (inp.switches &&& 3 = 1 ∧ g.game_state = GameState.GAME_OVER)) :
    loopIteration W H inp g = some g ∧
    (∀ g' : Game, loopIteration W H inp g = some g' →
      g'.snake.segments = g.snake.segments ∧ g'.snake.length = g.snake.length ∧
      g'.snake.direction = g.snake.direction ∧ g'.food.position = g.food.position ∧
      g'.score = g.score ∧ g'.game_state = g.game_state ∧ g'.led = g.led) := by
  have h : loopIteration W H inp g = some g := by
    simp only [loopIteration, switchPhase, if_neg hstart, if_neg hreset]
    simp [hst]
  refine ⟨h, ?_⟩
  intro g' hg'
  rw [h] at hg'
  cases hg'
  exact ⟨rfl, rfl, rfl, rfl, rfl, rfl, rfl⟩

/-- Witness for C16: a GAME_OVER game with all four buttons pressed and both
switches off is returned unchanged. -/
theorem C16_idle_iteration_witness :
    waitingGame.game_state = GameState.GAME_OVER ∧ allButtonsInput.switches &&& 3 ≠ 2 ∧
    loopIteration 35 25 allButtonsInput waitingGame = some waitingGame :=
  ⟨rfl, by decide,
   (C16_idle_iteration 35 25 allButtonsInput waitingGame (Or.inl rfl) (by decide)
     (by decide)).1⟩

theorem sample_aligned_inside (r : Int) (W : Nat) (hr : 0 ≤ r) (h0 : W / PIXEL_SIZE ≠ 0) :
    toU32 (Int.tmod r ((W / PIXEL_SIZE : Nat) : Int) * (PIXEL_SIZE : Int)) % PIXEL_SIZE = 0 ∧
    toU32 (Int.tmod r ((W / PIXEL_SIZE : Nat) : Int) * (PIXEL_SIZE : Int)) < W := by
  simp only [PIXEL_SIZE] at h0 ⊢
  have hb : (0 : Int) < ((W / 2 : Nat) : Int) := by omega
  rw [Int.tmod_eq_emod hr (le_of_lt hb)]
  have h1 := Int.emod_nonneg r (ne_of_gt hb)
  have h2 := Int.emod_lt_of_pos r hb
  generalize r % ((W / 2 : Nat) : Int) = k at h1 h2
  unfold toU32 U32
  omega

/-- C19. For every width and height of at least `PIXEL_SIZE`, every snake and
every list of non-negative `rand()` results on which `generateFood` returns,
the food position is grid-aligned and inside the display: x and y are
multiples of `PIXEL_SIZE` with `0 <= x < W` and `0 <= y < H`. -/
theorem C19_generateFood_aligned_inside (W H : Nat) (_hW : PIXEL_SIZE ≤ W) (_hH : PIXEL_SIZE ≤ H)
    (rands : List Int) (hr : ∀ r ∈ rands, 0 ≤ r) (s : Snake) (f0 : Food)
    (s' : Snake) (f' : Food) (rest : List Int)
    (h : generateFood W H rands s f0 = some (s', f', rest)) :
    f'.position.x % PIXEL_SIZE = 0 ∧ f'.position.y % PIXEL_SIZE = 0 ∧
    0 ≤ f'.position.x ∧ f'.position.x < W ∧ 0 ≤ f'.position.y ∧ f'.position.y < H := by
  obtain ⟨hw0, hh0, r1, hr1, r2, hr2, ex, ey⟩ :=
    generateFood_sample W H rands.length rands s f0 s' f' rest (le_refl _) h
  have hx := sample_aligned_inside r1 W (hr r1 hr1) hw0
  have hy := sample_aligned_inside r2 H (hr r2 hr2) hh0
  rw [← ex] at hx
  rw [← ey] at hy
  exact ⟨hx.1, hy.1, Nat.zero_le _, hx.2, Nat.zero_le _, hy.2⟩

/-- Witness for C19: on a 35 x 25 display `rand()` results 33 and 100 give the
food (32, 8). -/
theorem C19_generateFood_witness :
    generateFood 35 25 [33, 100] exampleSnake ⟨⟨0, 0⟩⟩ = some (exampleSnake, ⟨⟨32, 8⟩⟩, []) ∧
    (32 : Nat) % PIXEL_SIZE = 0 ∧ (32 : Nat) < 35 ∧ (8 : Nat) < 25 := by
  have h := C19_generateFood_aligned_inside 35 25 (by decide) (by decide) [33, 100]
    (by decide) exampleSnake ⟨⟨0, 0⟩⟩ exampleSnake ⟨⟨32, 8⟩⟩ [] (by decide)
  exact ⟨by decide, h.1, h.2.2.2.1, h.2.2.2.2.2⟩

/-! ## The shape of one loop iteration -/

theorem switchPhase_cases (W H : Nat) (inp : Input) (g g1 : Game)
    (h : switchPhase W H inp g = some g1) :
    g1 = g ∨ ∃ (st : GameState) (f : Food) (rest : List Int),
      (st = GameState.RUNNING ∨ st = GameState.GAME_OVER) ∧
      generateFood W H g.rands (initSnake g.snake) g.food = some (initSnake g.snake, f, rest) ∧
      g1 = { g with game_state := st, score := 0, snake := initSnake g.snake, food := f,
                    rands := rest,
                    led := drawFood W f (drawSnake W (initSnake g.snake)
                      (clearBoard W H g.led)) } := by
  unfold switchPhase at h
  dsimp only at h
  split at h
  · right
    cases hg : generateFood W H g.rands (initSnake g.snake) g.food with
    | none => rw [hg] at h; exact absurd h (by simp)
    | some r =>
      obtain ⟨s', f, rest⟩ := r
      obtain ⟨e1, _, _⟩ :=
        generateFood_some W H g.rands.length g.rands _ g.food s' f rest (le_refl _) hg
      subst e1
      rw [hg] at h
      simp only [Option.some.injEq] at h
      exact ⟨GameState.RUNNING, f, rest, Or.inl rfl, rfl, h.symm⟩
  · split at h
    · right
      cases hg : generateFood W H g.rands (initSnake g.snake) g.food with
      | none => rw [hg] at h; exact absurd h (by simp)
      | some r =>
        obtain ⟨s', f, rest⟩ := r
        obtain ⟨e1, _, _⟩ :=
          generateFood_some W H g.rands.length g.rands _ g.food s' f rest (le_refl _) hg
        subst e1
        rw [hg] at h
        simp only [Option.some.injEq] at h
        exact ⟨GameState.GAME_OVER, f, rest, Or.inr rfl, rfl, h.symm⟩
    · left
      simp only [Option.some.injEq] at h
      exact h.symm

theorem runningTick_cases (W H : Nat) (inp : Input) (g g' : Game)
    (h : runningTick W H inp g = some g') :
    ((checkWallCollision W H (moveSnake
          { g.snake with direction := updateDirection inp g.snake.direction }) = true ∨
      checkSelfCollision (moveSnake
          { g.snake with direction := updateDirection inp g.snake.direction }) = true) ∧
      g' = { g with
        snake := moveSnake { g.snake with direction := updateDirection inp g.snake.direction },
        led := eraseSnakeTail W
          { g.snake with direction := updateDirection inp g.snake.direction } g.led,
        game_state := GameState.GAME_OVER }) ∨
    (checkWallCollision W H (moveSnake
          { g.snake with direction := updateDirection inp g.snake.direction }) = false ∧
      checkSelfCollision (moveSnake
          { g.snake with direction := updateDirection inp g.snake.direction }) = false ∧
      checkFoodCollision (moveSnake
          { g.snake with direction := updateDirection inp g.snake.direction }) g.food = true ∧
      ∃ (f : Food) (rest : List Int),
        generateFood W H g.rands (grow (moveSnake
          { g.snake with direction := updateDirection inp g.snake.direction })) g.food =
          some (grow (moveSnake
            { g.snake with direction := updateDirection inp g.snake.direction }), f, rest) ∧
        g' = { g with
          snake := grow (moveSnake
            { g.snake with direction := updateDirection inp g.snake.direction }),
          food := f, rands := rest, score := g.score + 1,
          led := drawFood W f (drawSnake W (grow (moveSnake
            { g.snake with direction := updateDirection inp g.snake.direction }))
            (eraseSnakeTail W
              { g.snake with direction := updateDirection inp g.snake.direction } g.led)) }) ∨
    (checkWallCollision W H (moveSnake
          { g.snake with direction := updateDirection inp g.snake.direction }) = false ∧
      checkSelfCollision (moveSnake
          { g.snake with direction := updateDirection inp g.snake.direction }) = false ∧
      checkFoodCollision (moveSnake
          { g.snake with direction := updateDirection inp g.snake.direction }) g.food = false ∧
      g' = { g with
        snake := moveSnake { g.snake with direction := updateDirection inp g.snake.direction },
        led := drawFood W g.food (drawSnake W (moveSnake
            { g.snake with direction := updateDirection inp g.snake.direction })
            (eraseSnakeTail W
              { g.snake with direction := updateDirection inp g.snake.direction } g.led)) }) := by
  unfold runningTick at h
  dsimp only at h
  generalize hm : moveSnake
    { g.snake with direction := updateDirection inp g.snake.direction } = moved at h ⊢
  split at h
  · rename_i hc
    left
    simp only [Option.some.injEq] at h
    rw [Bool.or_eq_true] at hc
    exact ⟨hc, h.symm⟩
  · rename_i hc
    rw [Bool.or_eq_true, not_or] at hc
    have hw : checkWallCollision W H moved = false := by simpa using hc.1
    have hs : checkSelfCollision moved = false := by simpa using hc.2
    split at h
    · rename_i hf
      right; left
      cases hg : generateFood W H g.rands (grow moved) g.food with
      | none => rw [hg] at h; exact absurd h (by simp)
      | some r =>
        obtain ⟨s', f, rest⟩ := r
        obtain ⟨e1, _, _⟩ :=
          generateFood_some W H g.rands.length g.rands _ g.food s' f rest (le_refl _) hg
        subst e1
        rw [hg] at h
        simp only [Option.some.injEq] at h
        exact ⟨hw, hs, hf, f, rest, rfl, h.symm⟩
    · rename_i hf
      right; right
      simp only [Option.some.injEq] at h
      exact ⟨hw, hs, by simpa using hf, h.symm⟩

theorem loopIteration_cases (W H : Nat) (inp : Input) (g g' : Game)
    (h : loopIteration W H inp g = some g') :
    ∃ g1 : Game, switchPhase W H inp g = some g1 ∧
      ((g1.game_state ≠ GameState.RUNNING ∧ g' = g1) ∨
       (g1.game_state = GameState.RUNNING ∧ runningTick W H inp g1 = some g')) := by
  unfold loopIteration at h
  cases hs : switchPhase W H inp g with
  | none => rw [hs] at h; exact absurd h (by simp)
  | some g1 =>
    rw [hs] at h
    dsimp only at h
    refine ⟨g1, rfl, ?_⟩
    split at h
    · rename_i hst
      left
      simp only [Option.some.injEq] at h
      refine ⟨?_, h.symm⟩
      rcases hst with e | e <;> rw [e] <;> decide
    · rename_i hst
      right
      refine ⟨?_, h⟩
      cases hgs : g1.game_state with
      | GAME_OVER => exact absurd (Or.inl hgs) hst
      | RUNNING => rfl
      | PAUSED => exact absurd (Or.inr hgs) hst

theorem runLoop_invariant (W H : Nat) (I : Game → Prop)
    (hs : ∀ (inp : Input) (g g1 : Game), I g → switchPhase W H inp g = some g1 → I g1)
    (ht : ∀ (inp : Input) (g g' : Game), I g → g.game_state = GameState.RUNNING →
      runningTick W H inp g = some g' → I g') :
    ∀ (inputs : List Input) (g g' : Game), I g → runLoop W H inputs g = some g' → I g' := by
  intro inputs
  induction inputs with
  | nil =>
    intro g g' hI h
    simp only [runLoop, Option.some.injEq] at h
    exact h ▸ hI
  | cons inp rest ih =>
    intro g g' hI h
    rw [runLoop] at h
    cases hl : loopIteration W H inp g with
    | none => rw [hl] at h; exact absurd h (by simp)
    | some g2 =>
      rw [hl] at h
      dsimp only at h
      obtain ⟨g1, h1, hcase⟩ := loopIteration_cases W H inp g g2 hl
      have hI1 : I g1 := hs inp g g1 hI h1
      rcases hcase with ⟨_, e⟩ | ⟨hrun, htick⟩
      · exact ih g2 g' (e ▸ hI1) h
      · exact ih g2 g' (ht inp g1 g2 hI1 hrun htick) h

/-! ## The invariant of the reachable states -/

theorem mod_U32_mod_two (a : Nat) : a % 4294967296 % 2 = a % 2 :=
  Nat.mod_mod_of_dvd a (by decide)

theorem moveHead_coords (d : Direction) (p : Position) :
    ((moveHead d p).x = p.x ∨ (moveHead d p).x = (p.x + 4294967296 - 2) % 4294967296 ∨
      (moveHead d p).x = (p.x + 2) % 4294967296) ∧
    ((moveHead d p).y = p.y ∨ (moveHead d p).y = (p.y + 4294967296 - 2) % 4294967296 ∨
      (moveHead d p).y = (p.y + 2) % 4294967296) := by
  cases d <;> simp [moveHead, U32, PIXEL_SIZE]

theorem moveHead_aligned (d : Direction) (p : Position) (h : Aligned p) :
    Aligned (moveHead d p) := by
  unfold Aligned PIXEL_SIZE at h ⊢
  obtain ⟨hx, hy⟩ := h
  obtain ⟨cx, cy⟩ := moveHead_coords d p
  generalize (moveHead d p).x = a at cx ⊢
  generalize (moveHead d p).y = b at cy ⊢
  have e1 := mod_U32_mod_two (p.x + 4294967296 - 2)
  have e2 := mod_U32_mod_two (p.x + 2)
  have e3 := mod_U32_mod_two (p.y + 4294967296 - 2)
  have e4 := mod_U32_mod_two (p.y + 2)
  generalize (p.x + 4294967296 - 2) % 4294967296 = u1 at cx e1
  generalize (p.x + 2) % 4294967296 = u2 at cx e2
  generalize (p.y + 4294967296 - 2) % 4294967296 = u3 at cy e3
  generalize (p.y + 2) % 4294967296 = u4 at cy e4
  omega

theorem toU32_double_even (k : Int) : toU32 (k * (PIXEL_SIZE : Int)) % PIXEL_SIZE = 0 := by
  unfold toU32 U32 PIXEL_SIZE
  have h1 : (k * ((2 : Nat) : Int)) % ((4294967296 : Nat) : Int) % 2 = (k * ((2 : Nat) : Int)) % 2 :=
    Int.emod_emod_of_dvd _ (by decide)
  have h2 : 0 ≤ (k * ((2 : Nat) : Int)) % ((4294967296 : Nat) : Int) := Int.emod_nonneg _ (by decide)
  have h3 : (k * ((2 : Nat) : Int)) % 2 = 0 := Int.mul_emod_left k 2
  generalize (k * ((2 : Nat) : Int)) % ((4294967296 : Nat) : Int) = m at h1 h2 ⊢
  omega
theorem generateFood_aligned (W H : Nat) (rands : List Int) (s : Snake) (f0 : Food)
    (s' : Snake) (f' : Food) (rest : List Int)
    (h : generateFood W H rands s f0 = some (s', f', rest)) : Aligned f'.position := by
  obtain ⟨_, _, r1, _, r2, _, ex, ey⟩ :=
    generateFood_sample W H rands.length rands s f0 s' f' rest (le_refl _) h
  unfold Aligned
  rw [ex, ey]
  exact ⟨toU32_double_even _, toU32_double_even _⟩

theorem generateFood_off_snake (W H : Nat) (rands : List Int) (s : Snake) (f0 : Food)
    (s' : Snake) (f' : Food) (rest : List Int)
    (h : generateFood W H rands s f0 = some (s', f', rest)) :
    ∀ i : Nat, (i : Int) < s.length → s.seg i ≠ f'.position := by
  obtain ⟨_, e2, _⟩ := generateFood_some W H rands.length rands s f0 s' f' rest (le_refl _) h
  intro i hi he
  rcases (foodOnSnake_eq_false_iff s f').mp e2 i hi with hx | hy
  · exact hx (by rw [he])
  · exact hy (by rw [he])

theorem initSnake_wellFormed (s : Snake) (hwf : s.WellFormed) : (initSnake s).WellFormed := by
  have hl : s.segments.length = MAX_SNAKE_LENGTH := hwf
  simp [Snake.WellFormed, initSnake_segments, hl]

theorem inv_restart (W H : Nat) (g : Game) (hwf : g.snake.WellFormed) (st : GameState)
    (hst : st = GameState.RUNNING ∨ st = GameState.GAME_OVER) (f : Food) (rest : List Int)
    (led : Led)
    (hg : generateFood W H g.rands (initSnake g.snake) g.food = some (initSnake g.snake, f, rest)) :
    Inv { g with game_state := st, score := 0, snake := initSnake g.snake, food := f,
                 rands := rest, led := led } := by
  obtain ⟨h0, h1, h2⟩ := initSnake_seg g.snake hwf
  refine ⟨initSnake_wellFormed _ hwf, ?_, ?_, ?_, ?_, ?_, ?_, ?_, ?_, ?_⟩
  · show (3 : Int) ≤ 3; omega
  · show (3 : Int) ≤ (MAX_SNAKE_LENGTH : Int); simp [MAX_SNAKE_LENGTH]
  · show (0 : Int) ≤ 0; omega
  · show (3 : Int) = min (3 + 0) (MAX_SNAKE_LENGTH : Int); simp [MAX_SNAKE_LENGTH]
  · show st ≠ GameState.PAUSED
    rcases hst with e | e <;> rw [e] <;> decide
  · show (initSnake g.snake).seg 0 = moveHead Direction.RIGHT ((initSnake g.snake).seg 1)
    rw [h0, h1]; decide
  · exact generateFood_aligned W H _ _ _ _ _ _ hg
  · intro i hi
    have hi3 : (i : Int) + 1 < 3 := hi
    have : i = 0 ∨ i = 1 := by omega
    show Aligned ((initSnake g.snake).seg i)
    rcases this with h | h <;> subst h
    · rw [h0]; decide
    · rw [h1]; decide
  · intro _ i hi
    have hi3 : (i : Int) + 1 < 3 := hi
    exact generateFood_off_snake W H _ _ _ _ _ _ hg i (by show (i : Int) < 3; omega)

theorem inv_switch (W H : Nat) (inp : Input) (g g1 : Game) (hI : Inv g)
    (h : switchPhase W H inp g = some g1) : Inv g1 := by
  rcases switchPhase_cases W H inp g g1 h with e | ⟨st, f, rest, hst, hg, e⟩
  · exact e ▸ hI
  · rw [e]
    exact inv_restart W H g hI.1 st hst f rest _ hg

theorem moved_seg (g : Game) (hI : Inv g) (d : Direction) (j : Nat) :
    (moveSnake { g.snake with direction := d }).seg j =
      if j = 0 then moveHead d (g.snake.seg 0)
      else if (j : Int) < g.snake.length then g.snake.seg (j - 1) else g.snake.seg j := by
  obtain ⟨hwf, h3, h50, _⟩ := hI
  have hl : g.snake.segments.length = 50 := hwf
  simp only [MAX_SNAKE_LENGTH, Nat.cast_ofNat] at h50
  have hlen : (({ g.snake with direction := d } : Snake).length - 1).toNat <
      ({ g.snake with direction := d } : Snake).segments.length := by
    show (g.snake.length - 1).toNat < g.snake.segments.length
    omega
  rw [moveSnake_seg _ hlen]
  show (if j = 0 then moveHead d (g.snake.seg 0)
      else if j ≤ (g.snake.length - 1).toNat then g.snake.seg (j - 1) else g.snake.seg j) = _
  by_cases hj : j = 0
  · rw [if_pos hj, if_pos hj]
  · rw [if_neg hj, if_neg hj]
    by_cases hj2 : (j : Int) < g.snake.length
    · rw [if_pos hj2, if_pos (by omega)]
    · rw [if_neg hj2, if_neg (by omega)]

theorem inv_tick (W H : Nat) (inp : Input) (g g' : Game) (hI : Inv g)
    (hrun : g.game_state = GameState.RUNNING) (h : runningTick W H inp g = some g') :
    Inv g' := by
  have hseg := moved_seg g hI (updateDirection inp g.snake.direction)
  obtain ⟨hwf, h3, h50, hsc, hmin, hnp, hneck, haf, hal, hoff⟩ := hI
  have h50' : g.snake.length ≤ 50 := by simpa [MAX_SNAKE_LENGTH] using h50
  have hmin' : g.snake.length = min (3 + g.score) 50 := by simpa [MAX_SNAKE_LENGTH] using hmin
  generalize hm : moveSnake
    { g.snake with direction := updateDirection inp g.snake.direction } = moved at hseg
  have hmwf : moved.WellFormed := by
    rw [← hm]; exact moveSnake_wellFormed _ hwf
  have hmlen : moved.length = g.snake.length := by rw [← hm]; rfl
  have hmdir : moved.direction = updateDirection inp g.snake.direction := by rw [← hm]; rfl
  have hm0 : moved.seg 0 = moveHead (updateDirection inp g.snake.direction) (g.snake.seg 0) := by
    rw [hseg 0, if_pos rfl]
  have hm1 : moved.seg 1 = g.snake.seg 0 := by
    rw [hseg 1, if_neg (by omega), if_pos (by omega)]
  have hmal : ∀ i : Nat, (i : Int) < g.snake.length → Aligned (moved.seg i) := by
    intro i hi
    by_cases hi0 : i = 0
    · subst hi0
      rw [hm0]
      exact moveHead_aligned _ _ (hal 0 (by omega))
    · rw [hseg i, if_neg hi0, if_pos hi]
      exact hal (i - 1) (by omega)
  have hmoff : ∀ i : Nat, 1 ≤ i → (i : Int) + 1 < g.snake.length →
      moved.seg i ≠ g.food.position := by
    intro i hi1 hi
    rw [hseg i, if_neg (by omega), if_pos (by omega)]
    exact hoff hrun (i - 1) (by omega)
  have hneck' : moved.seg 0 = moveHead moved.direction (moved.seg 1) := by
    rw [hm0, hm1, hmdir]
  rcases runningTick_cases W H inp g g' h with ⟨_, e⟩ | ⟨_, _, _, f, rest, hg, e⟩ |
      ⟨_, _, hfc, e⟩
  · rw [hm] at e
    rw [e]
    refine ⟨hmwf, ?_, ?_, hsc, ?_, ?_, hneck', haf, ?_, ?_⟩
    · show 3 ≤ moved.length; omega
    · show moved.length ≤ (MAX_SNAKE_LENGTH : Int); rw [hmlen]; exact h50
    · show moved.length = min (3 + g.score) (MAX_SNAKE_LENGTH : Int); rw [hmlen]; exact hmin
    · show GameState.GAME_OVER ≠ GameState.PAUSED; decide
    · intro i hi
      have hi' : (i : Int) + 1 < moved.length := hi
      exact hmal i (by omega)
    · intro hgo
      exact absurd (show GameState.GAME_OVER = GameState.RUNNING from hgo) (by decide)
  · rw [hm] at e hg
    rw [e]
    have hgl : (grow moved).length = if moved.length < 50 then moved.length + 1
        else moved.length := by
      unfold grow
      simp only [MAX_SNAKE_LENGTH, Nat.cast_ofNat]
      split <;> rfl
    have hgl2 : (grow moved).length ≤ g.snake.length + 1 ∧ g.snake.length ≤ (grow moved).length ∧
        (grow moved).length ≤ 50 ∧ (grow moved).length = min (3 + (g.score + 1)) 50 := by
      rw [hgl, hmlen]
      split <;> omega
    have hgwf : (grow moved).WellFormed := by
      unfold grow; split
      · exact hmwf
      · exact hmwf
    have hgdir : (grow moved).direction = moved.direction := by
      unfold grow; split <;> rfl
    refine ⟨hgwf, ?_, ?_, ?_, ?_, ?_, ?_, generateFood_aligned W H _ _ _ _ _ _ hg, ?_, ?_⟩
    · show 3 ≤ (grow moved).length; omega
    · show (grow moved).length ≤ (MAX_SNAKE_LENGTH : Int)
      simp only [MAX_SNAKE_LENGTH, Nat.cast_ofNat]; omega
    · show 0 ≤ g.score + 1; omega
    · show (grow moved).length = min (3 + (g.score + 1)) (MAX_SNAKE_LENGTH : Int)
      simp only [MAX_SNAKE_LENGTH, Nat.cast_ofNat]; exact hgl2.2.2.2
    · exact hnp
    · show (grow moved).seg 0 = moveHead (grow moved).direction ((grow moved).seg 1)
      rw [grow_seg, grow_seg, hgdir]; exact hneck'
    · intro i hi
      have hi' : (i : Int) + 1 < (grow moved).length := hi
      show Aligned ((grow moved).seg i)
      rw [grow_seg]
      exact hmal i (by omega)
    · intro _ i hi
      have hi' : (i : Int) + 1 < (grow moved).length := hi
      exact generateFood_off_snake W H _ _ _ _ _ _ hg i (by omega)
  · rw [hm] at e hfc
    rw [e]
    refine ⟨hmwf, ?_, ?_, hsc, ?_, hnp, hneck', haf, ?_, ?_⟩
    · show 3 ≤ moved.length; omega
    · show moved.length ≤ (MAX_SNAKE_LENGTH : Int); rw [hmlen]; exact h50
    · show moved.length = min (3 + g.score) (MAX_SNAKE_LENGTH : Int); rw [hmlen]; exact hmin
    · intro i hi
      have hi' : (i : Int) + 1 < moved.length := hi
      exact hmal i (by omega)
    · intro _ i hi
      have hi' : (i : Int) + 1 < moved.length := hi
      by_cases hi0 : i = 0
      · subst hi0
        intro he
        have : checkFoodCollision moved g.food = true := by
          simp [checkFoodCollision, he]
        rw [hfc] at this
        exact absurd this (by decide)
      · exact hmoff i (by omega) (by omega)

theorem inv_start (W H : Nat) (sw0 : Nat) (snake0 : Snake) (food0 : Food) (rands : List Int)
    (g0 : Game) (hwf : snake0.WellFormed)
    (h : mainStart W H sw0 snake0 food0 rands = some g0) : Inv g0 := by
  unfold mainStart at h
  dsimp only at h
  cases hg : generateFood W H rands (initSnake snake0) food0 with
  | none => rw [hg] at h; exact absurd h (by simp)
  | some r =>
    obtain ⟨s', f, rest⟩ := r
    obtain ⟨e1, _, _⟩ :=
      generateFood_some W H rands.length rands _ food0 s' f rest (le_refl _) hg
    subst e1
    rw [hg] at h
    simp only [Option.some.injEq] at h
    rw [← h]
    exact inv_restart W H
      { snake := snake0, food := food0, game_state := GameState.GAME_OVER, score := 0,
        previous_switch_state := sw0 &&& 1, led := [], rands := rands }
      hwf GameState.GAME_OVER (Or.inr rfl) f rest _ hg

theorem reachable_inv (W H : Nat) (g : Game) (h : Reachable W H g) : Inv g := by
  obtain ⟨sw0, snake0, food0, rands, inputs, g0, hwf, hs, hr⟩ := h
  exact runLoop_invariant W H Inv (inv_switch W H) (inv_tick W H) inputs g0 g
    (inv_start W H sw0 snake0 food0 rands g0 hwf hs) hr


theorem reachable_of_run (W H : Nat) (sw0 : Nat) (snake0 : Snake) (food0 : Food)
    (rands : List Int) (inputs : List Input) (g : Game) (hwf : snake0.WellFormed)
    (h : (mainStart W H sw0 snake0 food0 rands).bind (runLoop W H inputs) = some g) :
    Reachable W H g := by
  cases hs : mainStart W H sw0 snake0 food0 rands with
  | none => rw [hs] at h; exact absurd h (by simp)
  | some g0 =>
    rw [hs] at h
    exact ⟨sw0, snake0, food0, rands, inputs, g0, hwf, hs, h⟩

theorem exampleRun_reachable (g : Game) (h : exampleRun = some g) : Reachable 35 25 g :=
  reachable_of_run 35 25 0 garbageSnake ⟨⟨0, 0⟩⟩ [0, 0, 6, 5, 0, 0] [startInput] g
    (by decide) h

theorem exampleRun_ne_none : exampleRun ≠ none := by decide

theorem updateDirection_ne_opposite (inp : Input) (d : Direction) :
    updateDirection inp d ≠ d.opposite := by
  unfold updateDirection
  cases d <;> split_ifs <;> simp_all [Direction.opposite]

theorem moveHead_cases (d : Direction) (p : Position) :
    (d = Direction.UP ∧ (moveHead d p).x = p.x ∧
      (moveHead d p).y = (p.y + 4294967296 - 2) % 4294967296) ∨
    (d = Direction.DOWN ∧ (moveHead d p).x = p.x ∧
      (moveHead d p).y = (p.y + 2) % 4294967296) ∨
    (d = Direction.LEFT ∧ (moveHead d p).x = (p.x + 4294967296 - 2) % 4294967296 ∧
      (moveHead d p).y = p.y) ∨
    (d = Direction.RIGHT ∧ (moveHead d p).x = (p.x + 2) % 4294967296 ∧
      (moveHead d p).y = p.y) := by
  cases d <;> simp [moveHead, U32, PIXEL_SIZE]

theorem moveHead_ne_self (d : Direction) (p : Position) : moveHead d p ≠ p := by
  intro h
  have hx : (moveHead d p).x = p.x := by rw [h]
  have hy : (moveHead d p).y = p.y := by rw [h]
  rcases moveHead_cases d p with ⟨_, a1, a2⟩ | ⟨_, a1, a2⟩ | ⟨_, a1, a2⟩ | ⟨_, a1, a2⟩ <;> omega

theorem moveHead_twice_ne (d d' : Direction) (n : Position) (h : d' ≠ d.opposite) :
    moveHead d' (moveHead d n) ≠ n := by
  intro he
  have hx : (moveHead d' (moveHead d n)).x = n.x := by rw [he]
  have hy : (moveHead d' (moveHead d n)).y = n.y := by rw [he]
  rcases moveHead_cases d n with ⟨e, a1, a2⟩ | ⟨e, a1, a2⟩ | ⟨e, a1, a2⟩ | ⟨e, a1, a2⟩ <;>
    rcases moveHead_cases d' (moveHead d n) with
      ⟨e', b1, b2⟩ | ⟨e', b1, b2⟩ | ⟨e', b1, b2⟩ | ⟨e', b1, b2⟩ <;>
    first
    | exact absurd (by rw [e, e']; rfl) h
    | omega

/-- C12. In every reachable state the snake length satisfies
`1 <= length <= MAX_SNAKE_LENGTH` and the segment array has its 50 entries, so
the indices 0, `length - 1` and every `i < length` are inside the array.  The
same holds inside the next iteration, after the switch handling and for the
advanced and grown snake. -/
theorem C12_length_in_bounds (W H : Nat) (g : Game) (h : Reachable W H g) :
    1 ≤ g.snake.length ∧ g.snake.length ≤ (MAX_SNAKE_LENGTH : Int) ∧
    g.snake.segments.length = MAX_SNAKE_LENGTH ∧
    0 < g.snake.segments.length ∧
    (g.snake.length - 1).toNat < g.snake.segments.length ∧
    (∀ i : Nat, (i : Int) < g.snake.length → i < g.snake.segments.length) ∧
    (∀ (inp : Input) (g1 : Game), switchPhase W H inp g = some g1 →
      1 ≤ g1.snake.length ∧ g1.snake.length ≤ (MAX_SNAKE_LENGTH : Int) ∧
      g1.snake.segments.length = MAX_SNAKE_LENGTH ∧
      1 ≤ (grow (moveSnake
        { g1.snake with direction := updateDirection inp g1.snake.direction })).length ∧
      (grow (moveSnake
        { g1.snake with direction := updateDirection inp g1.snake.direction })).length
        ≤ (MAX_SNAKE_LENGTH : Int)) := by
  have hI := reachable_inv W H g h
  have hwf := hI.1
  have h3 := hI.2.1
  have h50 := hI.2.2.1
  have hl : g.snake.segments.length = 50 := hwf
  have h50' : g.snake.length ≤ 50 := by simpa [MAX_SNAKE_LENGTH] using h50
  refine ⟨by omega, h50, hwf, by omega, by omega, fun i hi => by omega, ?_⟩
  intro inp g1 hs
  obtain ⟨hwf1, h31, h501, _⟩ := inv_switch W H inp g g1 hI hs
  refine ⟨by omega, h501, hwf1, ?_, ?_⟩
  · unfold grow
    split
    · show 1 ≤ g1.snake.length + 1; omega
    · show 1 ≤ g1.snake.length; omega
  · unfold grow
    split
    · rename_i hlt
      have hlt' : g1.snake.length < (MAX_SNAKE_LENGTH : Int) := hlt
      show g1.snake.length + 1 ≤ (MAX_SNAKE_LENGTH : Int)
      omega
    · exact h501

/-- Witness for C12: the state reached by `exampleRun` has a length between 1
and 50. -/
theorem C12_length_in_bounds_witness :
    ∃ g : Game, exampleRun = some g ∧ Reachable 35 25 g ∧
      1 ≤ g.snake.length ∧ g.snake.length ≤ (MAX_SNAKE_LENGTH : Int) := by
  cases h : exampleRun with
  | none => exact absurd h exampleRun_ne_none
  | some g =>
    exact ⟨g, rfl, exampleRun_reachable g h,
      (C12_length_in_bounds 35 25 g (exampleRun_reachable g h)).1,
      (C12_length_in_bounds 35 25 g (exampleRun_reachable g h)).2.1⟩

/-- C17. In every reachable state, and after the switch handling of the next
iteration (the start of a RUNNING tick), the head equals `segments[1]`
displaced by one block in the current direction.  Consequently, for every
input sample, the advance of that tick puts the old head in `segments[1]` and
the old neck in `segments[2]`, and the new head differs from both. -/
theorem C17_no_instant_self_collision (W H : Nat) (g : Game) (h : Reachable W H g)
    (inp : Input) (g1 : Game) (hs : switchPhase W H inp g = some g1) :
    g.snake.seg 0 = moveHead g.snake.direction (g.snake.seg 1) ∧
    g1.snake.seg 0 = moveHead g1.snake.direction (g1.snake.seg 1) ∧
    updateDirection inp g1.snake.direction ≠ g1.snake.direction.opposite ∧
    (moveSnake { g1.snake with direction := updateDirection inp g1.snake.direction }).seg 1
      = g1.snake.seg 0 ∧
    (moveSnake { g1.snake with direction := updateDirection inp g1.snake.direction }).seg 2
      = g1.snake.seg 1 ∧
    (moveSnake { g1.snake with direction := updateDirection inp g1.snake.direction }).seg 0
      ≠ (moveSnake { g1.snake with direction := updateDirection inp g1.snake.direction }).seg 2 ∧
    (moveSnake { g1.snake with direction := updateDirection inp g1.snake.direction }).seg 0
      ≠ (moveSnake { g1.snake with direction := updateDirection inp g1.snake.direction }).seg 1
    := by
  have hI := reachable_inv W H g h
  have hI1 := inv_switch W H inp g g1 hI hs
  have hseg := moved_seg g1 hI1 (updateDirection inp g1.snake.direction)
  obtain ⟨_, h3, _, _, _, _, hneck, _⟩ := hI1
  have e0 := hseg 0
  have e1 := hseg 1
  have e2 := hseg 2
  rw [if_pos rfl] at e0
  rw [if_neg (by omega), if_pos (by omega)] at e1
  rw [if_neg (by omega), if_pos (by omega)] at e2
  have hopp := updateDirection_ne_opposite inp g1.snake.direction
  refine ⟨hI.2.2.2.2.2.2.1, hneck, hopp, e1, e2, ?_, ?_⟩
  · rw [e0, e2]
    show moveHead (updateDirection inp g1.snake.direction) (g1.snake.seg 0) ≠ g1.snake.seg (2 - 1)
    have h21 : g1.snake.seg (2 - 1) = g1.snake.seg 1 := rfl
    rw [h21]
    intro he
    rw [hneck] at he
    exact moveHead_twice_ne _ _ _ hopp he
  · rw [e0, e1]
    exact moveHead_ne_self _ _

/-- Witness for C17: in the state reached by `exampleRun`, with all four
buttons pressed, the advanced head differs from the new `segments[1]` and
`segments[2]`. -/
theorem C17_no_instant_self_collision_witness :
    ∃ g : Game, exampleRun = some g ∧ Reachable 35 25 g ∧
      switchPhase 35 25 allButtonsInput g = some g ∧
      (moveSnake { g.snake with
          direction := updateDirection allButtonsInput g.snake.direction }).seg 0
        ≠ (moveSnake { g.snake with
          direction := updateDirection allButtonsInput g.snake.direction }).seg 2 := by
  cases h : exampleRun with
  | none => exact absurd h exampleRun_ne_none
  | some g =>
    have hsw : switchPhase 35 25 allButtonsInput g = some g := by
      simp [switchPhase, allButtonsInput]
    exact ⟨g, rfl, exampleRun_reachable g h, hsw,
      (C17_no_instant_self_collision 35 25 g (exampleRun_reachable g h) allButtonsInput g
        hsw).2.2.2.2.2.1⟩

/-- C20. In every reachable state, with `score` an unbounded integer, the
snake length is determined by the score: `length = min (3 + score) 50`, and
`score >= 0`. -/
theorem C20_length_from_score (W H : Nat) (g : Game) (h : Reachable W H g) :
    g.snake.length = min (3 + g.score) (MAX_SNAKE_LENGTH : Int) ∧ 0 ≤ g.score := by
  obtain ⟨_, _, _, hsc, hmin, _⟩ := reachable_inv W H g h
  exact ⟨hmin, hsc⟩

/-- Witness for C20: the state reached by `exampleRun` has score 1 and length 4. -/
theorem C20_length_from_score_witness :
    ∃ g : Game, exampleRun = some g ∧ Reachable 35 25 g ∧ g.score = 1 ∧
      g.snake.length = min (3 + g.score) (MAX_SNAKE_LENGTH : Int) := by
  have hsc : exampleRun.map (fun g => g.score) = some 1 := by decide
  cases h : exampleRun with
  | none => exact absurd h exampleRun_ne_none
  | some g =>
    rw [h] at hsc
    simp only [Option.map_some', Option.some.injEq] at hsc
    exact ⟨g, rfl, exampleRun_reachable g h, hsc,
      (C20_length_from_score 35 25 g (exampleRun_reachable g h)).1⟩


/-! ## The entry exposed by growth -/

/-- C13, evaluation at the failing input.  The local array is uninitialised
with (1000,1000) in every entry; `initSnake` writes entries 0..2 only.  After
the iteration in which the game starts and the head eats the food at (12,10),
the state is RUNNING, the length is 4 and `segments[3]` is still (1000,1000),
outside the 35 x 25 display. -/
theorem C13_segment_outside_while_running :
    (initSnake wildSnake).seg 3 = ⟨1000, 1000⟩ ∧
    wildRun.map (fun g => (g.game_state, g.snake.length, g.snake.seg 0, g.snake.seg 1,
        g.snake.seg 2, g.snake.seg 3)) =
      some (GameState.RUNNING, 4, ⟨12, 10⟩, ⟨10, 10⟩, ⟨8, 10⟩, ⟨1000, 1000⟩) ∧
    wildRun.map (fun g => decide ((g.snake.seg 3).x < 35 ∧ (g.snake.seg 3).y < 25)) =
      some false := by
  refine ⟨by decide, by decide, by decide⟩

/-- C14, evaluation at the failing input.  In the iteration in which the snake
grows from 3 to 4, `drawSnake` renders `segments[3]`, which neither `initSnake`
nor `moveSnake` has written: it still holds the uninitialised content of the
array, (7,7) in `exampleRun` and (0,0) in `zeroRun`, and the pixel at that
position is painted in the snake colour. -/
theorem C14_unwritten_entry_rendered :
    garbageSnake.seg 3 = ⟨7, 7⟩ ∧ (initSnake garbageSnake).seg 3 = ⟨7, 7⟩ ∧
    exampleRun.map (fun g => (g.snake.length, g.snake.seg 0, g.snake.seg 1, g.snake.seg 2)) =
      some (4, ⟨12, 10⟩, ⟨10, 10⟩, ⟨8, 10⟩) ∧
    exampleRun.map (fun g => (g.snake.seg 3, ledPixel g.led (7 * 35 + 7))) =
      some (⟨7, 7⟩, some SNAKE_COLOR) ∧
    zeroRun.map (fun g => (g.snake.length, g.snake.seg 0, g.snake.seg 1, g.snake.seg 2)) =
      some (4, ⟨12, 10⟩, ⟨10, 10⟩, ⟨8, 10⟩) ∧
    zeroRun.map (fun g => (g.snake.seg 3, ledPixel g.led (0 * 35 + 0))) =
      some (⟨0, 0⟩, some SNAKE_COLOR) := by
  refine ⟨by decide, by decide, by decide, by decide, by decide, by decide⟩

/-- C15 as stated fails.  On a 2 x 2 display the prelude of `main` draws the
snake at (10,10): some write has a word index of at least `2 * 2`.  On a
13 x 13 display with zeroed locals, a head at (12,12) passes the wall check
and `drawSnake` writes word 181 = 13 * 13 + 12, beyond the `13 * 13` words of
the buffer. -/
theorem C15_write_outside_counterexample :
    (mainStart 2 2 0 zeroSnake ⟨⟨0, 0⟩⟩ [0, 0]).map
        (fun g => g.led.any (fun w => decide (2 * 2 ≤ w.1))) = some true ∧
    bottomRun.map (fun g => (g.game_state, g.snake.seg 0,
        decide (((13 * 13 + 12 : Nat), SNAKE_COLOR) ∈ g.led))) =
      some (GameState.RUNNING, ⟨12, 12⟩, true) := by
  refine ⟨by decide, by decide⟩

/-! ## Writes stay inside the display -/

theorem generateFood_rest_mem (W H : Nat) (n : Nat) :
    ∀ (rands : List Int) (s : Snake) (f0 : Food) (s' : Snake) (f' : Food) (rest : List Int),
      rands.length ≤ n → generateFood W H rands s f0 = some (s', f', rest) →
      ∀ r ∈ rest, r ∈ rands := by
  induction n with
  | zero =>
    intro rands s f0 s' f' rest hn h
    match rands, hn with
    | [], _ => simp [generateFood] at h
  | succ n ih =>
    intro rands s f0 s' f' rest hn h
    match rands, hn, h with
    | [], _, h => simp [generateFood] at h
    | [_], _, h => simp [generateFood] at h
    | r1 :: r2 :: tl, hn, h =>
      rw [generateFood] at h
      split at h
      · exact absurd h (by simp)
      · dsimp only at h
        split at h
        · have hl : tl.length ≤ n := by simp at hn; omega
          intro r hr
          exact List.mem_cons_of_mem _ (List.mem_cons_of_mem _ (ih tl s _ s' f' rest hl h r hr))
        · simp only [Option.some.injEq, Prod.mk.injEq] at h
          obtain ⟨_, _, e3⟩ := h
          subst e3
          intro r hr
          exact List.mem_cons_of_mem _ (List.mem_cons_of_mem _ hr)

theorem generateFood_fed (W H : Nat) (hWH : W * H < 4294967296) (rands : List Int)
    (hr : ∀ r ∈ rands, 0 ≤ r) (s : Snake) (f0 : Food) (s' : Snake) (f' : Food)
    (rest : List Int) (h : generateFood W H rands s f0 = some (s', f', rest)) :
    (∀ r ∈ rest, 0 ≤ r) ∧ BlockInside W H f'.position := by
  obtain ⟨hw0, hh0, r1, hr1, r2, hr2, ex, ey⟩ :=
    generateFood_sample W H rands.length rands s f0 s' f' rest (le_refl _) h
  have hWpos : 0 < W := by
    rcases Nat.eq_zero_or_pos W with h0 | h0
    · subst h0; simp at hw0
    · exact h0
  have hHpos : 0 < H := by
    rcases Nat.eq_zero_or_pos H with h0 | h0
    · subst h0; simp at hh0
    · exact h0
  have hWlt : W < 4294967296 := by
    have : W ≤ W * H := Nat.le_mul_of_pos_right _ hHpos
    omega
  have hHlt : H < 4294967296 := by
    have : H ≤ W * H := Nat.le_mul_of_pos_left _ hWpos
    omega
  refine ⟨fun r hrm => hr r (generateFood_rest_mem W H rands.length rands s f0 s' f' rest
    (le_refl _) h r hrm), ?_, ?_⟩
  · have := (sample_bound r1 W (hr r1 hr1) hWlt hw0).1
    rw [← ex] at this
    show f'.position.x + PIXEL_SIZE ≤ W
    simp only [PIXEL_SIZE]; omega
  · have := (sample_bound r2 H (hr r2 hr2) hHlt hh0).1
    rw [← ey] at this
    show f'.position.y + PIXEL_SIZE ≤ H
    simp only [PIXEL_SIZE]; omega

theorem fed_switch (W H : Nat) (hWH : W * H < 4294967296) (inp : Input) (g g1 : Game)
    (hF : Fed W H g) (h : switchPhase W H inp g = some g1) : Fed W H g1 := by
  rcases switchPhase_cases W H inp g g1 h with e | ⟨st, f, rest, _, hg, e⟩
  · exact e ▸ hF
  · rw [e]
    exact generateFood_fed W H hWH g.rands hF.1 _ _ _ f rest hg

theorem fed_tick (W H : Nat) (hWH : W * H < 4294967296) (inp : Input) (g g' : Game)
    (hF : Fed W H g) (h : runningTick W H inp g = some g') : Fed W H g' := by
  rcases runningTick_cases W H inp g g' h with ⟨_, e⟩ | ⟨_, _, _, f, rest, hg, e⟩ | ⟨_, _, _, e⟩
  · rw [e]; exact hF
  · rw [e]
    exact generateFood_fed W H hWH g.rands hF.1 _ _ _ f rest hg
  · rw [e]; exact hF

theorem fed_start (W H : Nat) (hWH : W * H < 4294967296) (sw0 : Nat) (snake0 : Snake)
    (food0 : Food) (rands : List Int) (hr : ∀ r ∈ rands, 0 ≤ r) (g0 : Game)
    (h : mainStart W H sw0 snake0 food0 rands = some g0) : Fed W H g0 := by
  unfold mainStart at h
  dsimp only at h
  cases hg : generateFood W H rands (initSnake snake0) food0 with
  | none => rw [hg] at h; exact absurd h (by simp)
  | some r =>
    obtain ⟨s', f, rest⟩ := r
    rw [hg] at h
    simp only [Option.some.injEq] at h
    rw [← h]
    exact generateFood_fed W H hWH rands hr _ _ _ f rest hg

theorem pixelWrite_lt (W H : Nat) (w : Nat × Nat) (h : PixelWrite W H w) : w.1 < W * H := by
  obtain ⟨x, y, hx, hy, e⟩ := h
  have h1 : (y + 1) * W ≤ H * W := Nat.mul_le_mul_right W hy
  have h2 : (y + 1) * W = y * W + W := by ring
  have h3 : H * W = W * H := Nat.mul_comm H W
  omega

theorem pixelWrite_paintBlock (W H c : Nat) (p : Position) (led : Led)
    (hWH : W * H < 4294967296) (hp : BlockInside W H p)
    (hl : ∀ w ∈ led, PixelWrite W H w) : ∀ w ∈ paintBlock W c p led, PixelWrite W H w := by
  have hpx : p.x + 2 ≤ W := hp.1
  have hpy : p.y + 2 ≤ H := hp.2
  intro w hw
  rw [paintBlock_eq] at hw
  simp only [List.cons_append, List.nil_append, List.mem_cons] at hw
  rcases hw with e | e | e | e | hw
  · exact ⟨p.x + 1, p.y + 1, by omega, by omega, by
      rw [e]; exact pixelIndex_inside W H p 1 1 hWH (by omega) (by omega)⟩
  · exact ⟨p.x + 1, p.y + 0, by omega, by omega, by
      rw [e]; exact pixelIndex_inside W H p 1 0 hWH (by omega) (by omega)⟩
  · exact ⟨p.x + 0, p.y + 1, by omega, by omega, by
      rw [e]; exact pixelIndex_inside W H p 0 1 hWH (by omega) (by omega)⟩
  · exact ⟨p.x + 0, p.y + 0, by omega, by omega, by
      rw [e]; exact pixelIndex_inside W H p 0 0 hWH (by omega) (by omega)⟩
  · exact hl w hw

theorem foldl_all {α : Type} (P : Nat × Nat → Prop) (step : Led → α → Led) (l : List α)
    (hstep : ∀ (led : Led) (a : α), a ∈ l → (∀ w ∈ led, P w) → ∀ w ∈ step led a, P w) :
    ∀ led : Led, (∀ w ∈ led, P w) → ∀ w ∈ l.foldl step led, P w := by
  induction l with
  | nil => intro led hl; exact hl
  | cons a l ih =>
    intro led hl
    rw [List.foldl_cons]
    exact ih (fun led b hb => hstep led b (List.mem_cons_of_mem _ hb)) _
      (hstep led a (List.mem_cons_self _ _) hl)

theorem pixelWrite_drawSnake (W H : Nat) (s : Snake) (led : Led) (hWH : W * H < 4294967296)
    (hs : ∀ i : Nat, (i : Int) < s.length → BlockInside W H (s.seg i))
    (hl : ∀ w ∈ led, PixelWrite W H w) : ∀ w ∈ drawSnake W s led, PixelWrite W H w := by
  unfold drawSnake
  apply foldl_all (PixelWrite W H) _ _ _ led hl
  intro led' i hi hl'
  exact pixelWrite_paintBlock W H _ _ led' hWH
    (hs i (by have := List.mem_range.mp hi; omega)) hl'

theorem pixelWrite_clearBoard (W H : Nat) (led : Led) (hl : ∀ w ∈ led, PixelWrite W H w) :
    ∀ w ∈ clearBoard W H led, PixelWrite W H w := by
  unfold clearBoard
  apply foldl_all (PixelWrite W H) _ _ _ led hl
  intro led' i hi hl'
  apply foldl_all (PixelWrite W H) _ _ _ led' hl'
  intro led'' j hj hl'' w hw
  rcases List.mem_cons.mp hw with e | hw
  · exact ⟨i, j, List.mem_range.mp hi, List.mem_range.mp hj, by rw [e]⟩
  · exact hl'' w hw

theorem initSnake_seg_ge (s : Snake) (i : Nat) (hi : 3 ≤ i) : (initSnake s).seg i = s.seg i := by
  simp only [Snake.seg, initSnake_segments, getD_set_eq]
  rw [if_neg (by omega), if_neg (by omega), if_neg (by omega)]

theorem seg_blockInside (W H : Nat) (hW : 2 ≤ W) (hH : 2 ≤ H) (s : Snake)
    (h : ∀ p ∈ s.segments, BlockInside W H p) (i : Nat) : BlockInside W H (s.seg i) := by
  unfold Snake.seg
  rw [List.getD_eq_getElem?_getD]
  cases he : s.segments[i]? with
  | none => exact ⟨hW, hH⟩
  | some p => exact h p (List.getElem?_mem he)

theorem safe_restart (W H : Nat) (hW : 12 ≤ W) (hH : 12 ≤ H) (hWH : W * H < 4294967296)
    (s : Snake) (hwf : s.WellFormed) (hs : ∀ i : Nat, 3 ≤ i → BlockInside W H (s.seg i))
    (led : Led) (hl : ∀ w ∈ led, PixelWrite W H w) (f : Food)
    (hf : BlockInside W H f.position) (g' : Game) (hsn : g'.snake = initSnake s)
    (hled : g'.led = drawFood W f (drawSnake W (initSnake s) (clearBoard W H led))) :
    Safe W H g' := by
  obtain ⟨h0, h1, h2⟩ := initSnake_seg s hwf
  have hb0 : BlockInside W H (⟨10, 10⟩ : Position) := ⟨by show 10 + 2 ≤ W; omega,
    by show 10 + 2 ≤ H; omega⟩
  have hb1 : BlockInside W H (⟨8, 10⟩ : Position) := ⟨by show 8 + 2 ≤ W; omega,
    by show 10 + 2 ≤ H; omega⟩
  have hb2 : BlockInside W H (⟨6, 10⟩ : Position) := ⟨by show 6 + 2 ≤ W; omega,
    by show 10 + 2 ≤ H; omega⟩
  have hall : ∀ i : Nat, BlockInside W H ((initSnake s).seg i) := by
    intro i
    by_cases hi : 3 ≤ i
    · rw [initSnake_seg_ge s i hi]; exact hs i hi
    · have : i = 0 ∨ i = 1 ∨ i = 2 := by omega
      rcases this with h | h | h <;> subst h
      · rw [h0]; exact hb0
      · rw [h1]; exact hb1
      · rw [h2]; exact hb2
  refine ⟨?_, ?_, ?_⟩
  · rw [hled]
    unfold drawFood
    exact pixelWrite_paintBlock W H _ _ _ hWH hf
      (pixelWrite_drawSnake W H _ _ hWH (fun i _ => hall i) (pixelWrite_clearBoard W H led hl))
  · intro i _
    rw [hsn]; exact hall i
  · intro _
    rw [hsn]; exact hall 0

theorem safe_switch (W H : Nat) (hW : 12 ≤ W) (hH : 12 ≤ H) (hWH : W * H < 4294967296)
    (inp : Input) (g g1 : Game) (hI : Inv g) (hF : Fed W H g) (hS : Safe W H g)
    (h : switchPhase W H inp g = some g1) : Safe W H g1 := by
  rcases switchPhase_cases W H inp g g1 h with e | ⟨st, f, rest, _, hg, e⟩
  · exact e ▸ hS
  · have hf := (generateFood_fed W H hWH g.rands hF.1 _ _ _ f rest hg).2
    exact safe_restart W H hW hH hWH g.snake hI.1 (fun i hi => hS.2.1 i (by omega)) g.led
      hS.1 f hf g1 (by rw [e]) (by rw [e])

theorem safe_tick (W H : Nat) (hW2 : W % 2 = 0) (hH2 : H % 2 = 0) (hWH : W * H < 4294967296)
    (inp : Input) (g g' : Game) (hI : Inv g) (hF : Fed W H g) (hS : Safe W H g)
    (hrun : g.game_state = GameState.RUNNING) (h : runningTick W H inp g = some g') :
    Safe W H g' := by
  have hseg := moved_seg g hI (updateDirection inp g.snake.direction)
  obtain ⟨hwf, h3, h50, _, _, _, _, _, hal, _⟩ := hI
  obtain ⟨hled, hbody, hhead⟩ := hS
  have h50' : g.snake.length ≤ 50 := by simpa [MAX_SNAKE_LENGTH] using h50
  have herase : ∀ w ∈ eraseSnakeTail W
      { g.snake with direction := updateDirection inp g.snake.direction } g.led,
      PixelWrite W H w := by
    unfold eraseSnakeTail
    exact pixelWrite_paintBlock W H _ _ _ hWH
      (hbody (g.snake.length - 1).toNat (by omega)) hled
  generalize hm : moveSnake
    { g.snake with direction := updateDirection inp g.snake.direction } = moved at hseg
  have hmlen : moved.length = g.snake.length := by rw [← hm]; rfl
  have hmbody : ∀ i : Nat, 1 ≤ i → BlockInside W H (moved.seg i) := by
    intro i hi
    rw [hseg i, if_neg (by omega)]
    by_cases hil : (i : Int) < g.snake.length
    · rw [if_pos hil]
      by_cases hi1 : i = 1
      · subst hi1; exact hhead hrun
      · exact hbody (i - 1) (by omega)
    · rw [if_neg hil]; exact hbody i hi
  have hm0 : moved.seg 0 = moveHead (updateDirection inp g.snake.direction) (g.snake.seg 0) := by
    rw [hseg 0, if_pos rfl]
  have hmal : Aligned (moved.seg 0) := by
    rw [hm0]; exact moveHead_aligned _ _ (hal 0 (by omega))
  have hmhead : checkWallCollision W H moved = false → BlockInside W H (moved.seg 0) := by
    intro hw
    have hin : (moved.seg 0).x < W ∧ (moved.seg 0).y < H := by
      by_contra hc
      have : checkWallCollision W H moved = true := by
        rw [checkWallCollision_iff]; omega
      rw [hw] at this
      exact absurd this (by decide)
    obtain ⟨ax, ay⟩ := hmal
    simp only [PIXEL_SIZE] at ax ay
    refine ⟨?_, ?_⟩
    · show (moved.seg 0).x + 2 ≤ W; omega
    · show (moved.seg 0).y + 2 ≤ H; omega
  rcases runningTick_cases W H inp g g' h with ⟨_, e⟩ | ⟨hw, _, _, f, rest, hg, e⟩ |
      ⟨hw, _, _, e⟩
  · rw [hm] at e
    rw [e]
    refine ⟨herase, hmbody, ?_⟩
    intro hgo
    exact absurd (show GameState.GAME_OVER = GameState.RUNNING from hgo) (by decide)
  · rw [hm] at e hg hw
    rw [e]
    have hf := (generateFood_fed W H hWH g.rands hF.1 _ _ _ f rest hg).2
    have hgall : ∀ i : Nat, BlockInside W H ((grow moved).seg i) := by
      intro i
      rw [grow_seg]
      by_cases hi : i = 0
      · subst hi; exact hmhead hw
      · exact hmbody i (by omega)
    refine ⟨?_, fun i _ => hgall i, fun _ => hgall 0⟩
    show ∀ w ∈ drawFood W f (drawSnake W (grow moved) (eraseSnakeTail W _ g.led)),
      PixelWrite W H w
    unfold drawFood
    exact pixelWrite_paintBlock W H _ _ _ hWH hf
      (pixelWrite_drawSnake W H _ _ hWH (fun i _ => hgall i) herase)
  · rw [hm] at e hw
    rw [e]
    have hall : ∀ i : Nat, BlockInside W H (moved.seg i) := by
      intro i
      by_cases hi : i = 0
      · subst hi; exact hmhead hw
      · exact hmbody i (by omega)
    refine ⟨?_, fun i _ => hall i, fun _ => hall 0⟩
    show ∀ w ∈ drawFood W g.food (drawSnake W moved (eraseSnakeTail W _ g.led)),
      PixelWrite W H w
    unfold drawFood
    exact pixelWrite_paintBlock W H _ _ _ hWH hF.2
      (pixelWrite_drawSnake W H _ _ hWH (fun i _ => hall i) herase)

theorem safe_start (W H : Nat) (hW : 12 ≤ W) (hH : 12 ≤ H) (hWH : W * H < 4294967296)
    (sw0 : Nat) (snake0 : Snake) (food0 : Food) (rands : List Int) (hr : ∀ r ∈ rands, 0 ≤ r)
    (hwf : snake0.WellFormed) (hgar : ∀ p ∈ snake0.segments, BlockInside W H p) (g0 : Game)
    (h : mainStart W H sw0 snake0 food0 rands = some g0) : Safe W H g0 := by
  have hF := fed_start W H hWH sw0 snake0 food0 rands hr g0 h
  unfold mainStart at h
  dsimp only at h
  cases hg : generateFood W H rands (initSnake snake0) food0 with
  | none => rw [hg] at h; exact absurd h (by simp)
  | some r =>
    obtain ⟨s', f, rest⟩ := r
    obtain ⟨e1, _, _⟩ :=
      generateFood_some W H rands.length rands _ food0 s' f rest (le_refl _) hg
    subst e1
    rw [hg] at h
    simp only [Option.some.injEq] at h
    have hf : BlockInside W H f.position := by
      have := hF.2
      rw [← h] at this
      exact this
    exact safe_restart W H hW hH hWH snake0 hwf
      (fun i _ => seg_blockInside W H (by omega) (by omega) snake0 hgar i) []
      (fun w hw => absurd hw (List.not_mem_nil w)) f hf g0 (by rw [← h]) (by rw [← h])

/-- C15 (amended). On a display whose width and height are multiples of
`PIXEL_SIZE`, at least 12 each, with `W * H < 2^32`, with non-negative
`rand()` results and an uninitialised segment array whose entries are blocks
inside the display (for example all zero): in every state reachable from
program start, every write performed so far by `clearBoard`, `drawSnake`,
`eraseSnakeTail` and `drawFood` went to a word `y * W + x` with `x < W` and
`y < H`, hence below `W * H`; the food block and, while RUNNING, every segment
block below `length` are inside the display; and for a block inside the
display the written word is the intended column of the intended row. -/
theorem C15_writes_inside (W H : Nat) (hW2 : W % PIXEL_SIZE = 0) (hH2 : H % PIXEL_SIZE = 0)
    (hW : 12 ≤ W) (hH : 12 ≤ H) (hWH : W * H < 4294967296)
    (sw0 : Nat) (snake0 : Snake) (food0 : Food) (rands : List Int) (inputs : List Input)
    (g0 g : Game) (hwf : snake0.WellFormed)
    (hgar : ∀ p ∈ snake0.segments, BlockInside W H p) (hr : ∀ r ∈ rands, 0 ≤ r)
    (hs : mainStart W H sw0 snake0 food0 rands = some g0)
    (hrun : runLoop W H inputs g0 = some g) :
    (∀ w ∈ g.led, ∃ x y : Nat, x < W ∧ y < H ∧ w.1 = y * W + x) ∧
    (∀ w ∈ g.led, w.1 < W * H) ∧
    BlockInside W H g.food.position ∧
    (g.game_state = GameState.RUNNING →
      ∀ i : Nat, (i : Int) < g.snake.length → BlockInside W H (g.snake.seg i)) ∧
    (∀ (p : Position) (px py : Nat), BlockInside W H p → px < PIXEL_SIZE → py < PIXEL_SIZE →
      pixelIndex W p px py = (p.y + py) * W + (p.x + px) ∧ p.x + px < W ∧ p.y + py < H) := by
  have hW2' : W % 2 = 0 := hW2
  have hH2' : H % 2 = 0 := hH2
  have hall : Inv g ∧ Fed W H g ∧ Safe W H g := by
    apply runLoop_invariant W H (fun g => Inv g ∧ Fed W H g ∧ Safe W H g) _ _ inputs g0 g _ hrun
    · intro inp g g1 ⟨hI, hF, hS⟩ h
      exact ⟨inv_switch W H inp g g1 hI h, fed_switch W H hWH inp g g1 hF h,
        safe_switch W H hW hH hWH inp g g1 hI hF hS h⟩
    · intro inp g g' ⟨hI, hF, hS⟩ hst h
      exact ⟨inv_tick W H inp g g' hI hst h, fed_tick W H hWH inp g g' hF h,
        safe_tick W H hW2' hH2' hWH inp g g' hI hF hS hst h⟩
    · exact ⟨inv_start W H sw0 snake0 food0 rands g0 hwf hs,
        fed_start W H hWH sw0 snake0 food0 rands hr g0 hs,
        safe_start W H hW hH hWH sw0 snake0 food0 rands hr hwf hgar g0 hs⟩
  obtain ⟨_, hF, hled, hbody, hhead⟩ := hall
  refine ⟨hled, fun w hw => pixelWrite_lt W H w (hled w hw), hF.2, ?_, ?_⟩
  · intro hst i _
    by_cases hi : i = 0
    · subst hi; exact hhead hst
    · exact hbody i (by omega)
  · intro p px py hp hpx hpy
    have h1 : p.x + 2 ≤ W := hp.1
    have h2 : p.y + 2 ≤ H := hp.2
    have hpx' : px < 2 := hpx
    have hpy' : py < 2 := hpy
    exact ⟨pixelIndex_inside W H p px py hWH (by omega) (by omega), by omega, by omega⟩

theorem evenRun_ne_none : evenRun ≠ none := by decide

/-- Witness for C15 (amended): on a 14 x 12 display with zeroed locals, after
program start and one iteration with the start switch set, every write went to
a word below `14 * 12`. -/
theorem C15_writes_inside_witness :
    ∃ g : Game, evenRun = some g ∧ ∀ w ∈ g.led, w.1 < 14 * 12 := by
  cases h : evenRun with
  | none => exact absurd h evenRun_ne_none
  | some g =>
    refine ⟨g, rfl, ?_⟩
    cases h0 : mainStart 14 12 0 zeroSnake ⟨⟨0, 0⟩⟩ [1, 1, 1, 1] with
    | none =>
      unfold evenRun at h
      rw [h0] at h
      exact absurd h (by simp)
    | some g0 =>
      unfold evenRun at h
      rw [h0] at h
      exact (C15_writes_inside 14 12 (by decide) (by decide) (by decide) (by decide)
        (by decide) 0 zeroSnake ⟨⟨0, 0⟩⟩ [1, 1, 1, 1] [startInput] g0 g (by decide)
        (by decide) (by decide) h0 h).2.1

/-! ## Trail erasure -/

set_option maxRecDepth 100000 in
/-- C18, evaluation at the failing input.  On a 15 x 12 display the reachable
state `oddBefore` is RUNNING with pairwise distinct segments inside the display
and a display that shows exactly the snake blocks.  The next tick has no
collision and eats no food; the head moves to (14,10), which the wall check
accepts, and afterwards the pixel (0,11) is snake-coloured although it lies in
no segment block.  The same happens on a 35 x 25 display when the head moves
from (32,10) to (34,10): the pixel (0,11), background before the tick, is
snake-coloured after it. -/
theorem C18_block_written_across_row_end :
    oddBefore.map (fun g => (g.game_state, g.snake.length, g.score,
        decide (SegmentsDistinct g.snake ∧ SegmentsInside 15 12 g.snake ∧ SnakeShown 15 12 g))) =
      some (GameState.RUNNING, 3, 0, true) ∧
    oddAfter.map (fun g => (g.game_state, g.snake.length, g.score, g.snake.seg 0)) =
      some (GameState.RUNNING, 3, 0, ⟨14, 10⟩) ∧
    oddAfter.map (fun g => (ledPixel g.led (11 * 15 + 0),
        decide (∃ i < g.snake.length.toNat, inBlock (g.snake.seg i) 0 11),
        decide (SnakeShown 15 12 g))) =
      some (some SNAKE_COLOR, false, false) ∧
    rightEdgeBefore.map (fun g => (g.game_state, g.snake.length, g.snake.seg 0,
        ledPixel g.led (11 * 35 + 0))) =
      some (GameState.RUNNING, 3, ⟨32, 10⟩, some BACKGROUND_COLOR) ∧
    rightEdgeAfter.map (fun g => (g.game_state, g.snake.length, g.snake.seg 0,
        ledPixel g.led (11 * 35 + 0))) =
      some (GameState.RUNNING, 3, ⟨34, 10⟩, some SNAKE_COLOR) ∧
    rightEdgeAfter.map (fun g =>
        decide (∃ i < g.snake.length.toNat, inBlock (g.snake.seg i) 0 11)) =
      some false := by
  refine ⟨by decide, by decide, by decide, by decide, by decide, by decide⟩

theorem blocks_disjoint (p q : Position) (hp : Aligned p) (hq : Aligned q) (x y : Nat)
    (h1 : inBlock p x y) (h2 : inBlock q x y) : p = q := by
  unfold Aligned PIXEL_SIZE at hp hq
  unfold inBlock PIXEL_SIZE at h1 h2
  rw [position_eq_iff]
  omega

theorem block_written (W H : Nat) (hWH : W * H < 4294967296) (p : Position) (x y : Nat)
    (hx : x < W) (hy : y < H) (h : inBlock p x y) :
    ∃ px ∈ List.range PIXEL_SIZE, ∃ py ∈ List.range PIXEL_SIZE,
      pixelIndex W p px py = y * W + x := by
  unfold inBlock PIXEL_SIZE at h
  refine ⟨x - p.x, List.mem_range.mpr (by show x - p.x < 2; omega), y - p.y,
    List.mem_range.mpr (by show y - p.y < 2; omega), ?_⟩
  rw [pixelIndex_inside W H p _ _ hWH (by omega) (by omega)]
  have e1 : p.x + (x - p.x) = x := by omega
  have e2 : p.y + (y - p.y) = y := by omega
  rw [e1, e2]

theorem plain_tick (W H : Nat) (inp : Input) (g : Game)
    (hrun : g.game_state = GameState.RUNNING) (hsw : inp.switches &&& 3 ≠ 2)
    (moved : Snake)
    (hmoved : moved = moveSnake { g.snake with direction := updateDirection inp g.snake.direction })
    (hin : (moved.seg 0).x < W ∧ (moved.seg 0).y < H)
    (hself : ∀ i : Nat, 1 ≤ i → (i : Int) < moved.length → moved.seg i ≠ moved.seg 0)
    (hnofood : moved.seg 0 ≠ g.food.position) :
    loopIteration W H inp g = some { g with
      snake := moved,
      led := drawFood W g.food (drawSnake W moved (eraseSnakeTail W
        { g.snake with direction := updateDirection inp g.snake.direction } g.led)) } := by
  have hwall : checkWallCollision W H moved = false := by
    cases hc : checkWallCollision W H moved with
    | false => rfl
    | true => rw [checkWallCollision_iff] at hc; omega
  have hsc : checkSelfCollision moved = false := by
    cases hc : checkSelfCollision moved with
    | false => rfl
    | true =>
      rw [checkSelfCollision_iff] at hc
      obtain ⟨i, hi1, hi2, hx, hy⟩ := hc
      exact absurd ((position_eq_iff _ _).mpr ⟨hx, hy⟩) (hself i hi1 hi2)
  have hfc : checkFoodCollision moved g.food = false := by
    cases hc : checkFoodCollision moved g.food with
    | false => rfl
    | true =>
      simp only [checkFoodCollision, Bool.and_eq_true, beq_iff_eq] at hc
      exact absurd ((position_eq_iff _ _).mpr hc) hnofood
  rw [loopIteration_running W H inp g hrun hsw]
  simp only [runningTick, ← hmoved, hwall, hsc, hfc]
  simp

/-- Trail erasure on a display whose width and height are multiples of
`PIXEL_SIZE`, where the wall check and the block size agree.  With
`W * H < 2^32`, in every state reachable from program start with non-negative
`rand()` results: for a RUNNING tick with no collision and no food eaten, if
before the tick the segments below `length` are pairwise distinct and inside
the display and the snake-coloured pixels are exactly the pixels of their
blocks, then after the tick the snake-coloured pixels are exactly the pixels
of the blocks of the advanced segments; a pixel of the old tail block that is
in no advanced block and not in the food block is background; and outside the
old tail block and the new head block no pixel changed from or to the snake
colour. -/
theorem trail_erasure_on_even_display (W H : Nat) (hW2 : W % PIXEL_SIZE = 0) (hH2 : H % PIXEL_SIZE = 0)
    (hWH : W * H < 4294967296)
    (sw0 : Nat) (snake0 : Snake) (food0 : Food) (rands : List Int) (inputs : List Input)
    (g0 g : Game) (hwf : snake0.WellFormed) (hr : ∀ r ∈ rands, 0 ≤ r)
    (hs : mainStart W H sw0 snake0 food0 rands = some g0)
    (hreach : runLoop W H inputs g0 = some g)
    (inp : Input) (hrun : g.game_state = GameState.RUNNING) (hsw : inp.switches &&& 3 ≠ 2)
    (moved : Snake)
    (hmoved : moved = moveSnake { g.snake with direction := updateDirection inp g.snake.direction })
    (hin : (moved.seg 0).x < W ∧ (moved.seg 0).y < H)
    (hself : ∀ i : Nat, 1 ≤ i → (i : Int) < moved.length → moved.seg i ≠ moved.seg 0)
    (hnofood : moved.seg 0 ≠ g.food.position)
    (_hdist : SegmentsDistinct g.snake) (hinside : SegmentsInside W H g.snake)
    (hshown : SnakeShown W H g) :
    ∃ g' : Game, loopIteration W H inp g = some g' ∧ g'.snake = moved ∧
      g'.game_state = GameState.RUNNING ∧ g'.score = g.score ∧ g'.food = g.food ∧
      SnakeShown W H g' ∧
      (∀ x < W, ∀ y < H, inBlock (g.snake.seg (g.snake.length - 1).toNat) x y →
        (¬ ∃ i < g'.snake.length.toNat, inBlock (g'.snake.seg i) x y) →
        ¬ inBlock g.food.position x y →
        ledPixel g'.led (y * W + x) = some BACKGROUND_COLOR) ∧
      (∀ x < W, ∀ y < H, ¬ inBlock (g.snake.seg (g.snake.length - 1).toNat) x y →
        ¬ inBlock (g'.snake.seg 0) x y →
        (ledPixel g'.led (y * W + x) = some SNAKE_COLOR ↔
          ledPixel g.led (y * W + x) = some SNAKE_COLOR)) := by
  have hW2' : W % 2 = 0 := hW2
  have hH2' : H % 2 = 0 := hH2
  have hall : Inv g ∧ Fed W H g := by
    apply runLoop_invariant W H (fun g => Inv g ∧ Fed W H g) _ _ inputs g0 g _ hreach
    · intro inp g g1 ⟨hI, hF⟩ h
      exact ⟨inv_switch W H inp g g1 hI h, fed_switch W H hWH inp g g1 hF h⟩
    · intro inp g g' ⟨hI, hF⟩ hst h
      exact ⟨inv_tick W H inp g g' hI hst h, fed_tick W H hWH inp g g' hF h⟩
    · exact ⟨inv_start W H sw0 snake0 food0 rands g0 hwf hs,
        fed_start W H hWH sw0 snake0 food0 rands hr g0 hs⟩
  obtain ⟨hI, hF⟩ := hall
  have hseg := moved_seg g hI (updateDirection inp g.snake.direction)
  rw [← hmoved] at hseg
  obtain ⟨_, h3, h50, _, _, _, _, haf, hal, hoff⟩ := hI
  have hmlen : moved.length = g.snake.length := by rw [hmoved]; rfl
  have hfx : g.food.position.x + 1 < W := by
    have := hF.2.1; simp only [PIXEL_SIZE] at this; omega
  have hfy : g.food.position.y + 1 < H := by
    have := hF.2.2; simp only [PIXEL_SIZE] at this; omega
  -- the advanced segments: alignment, position, relation to the old ones
  have hm0 : moved.seg 0 = moveHead (updateDirection inp g.snake.direction) (g.snake.seg 0) := by
    rw [hseg 0, if_pos rfl]
  have hmprev : ∀ i : Nat, 1 ≤ i → (i : Int) < g.snake.length →
      moved.seg i = g.snake.seg (i - 1) := by
    intro i hi1 hi
    rw [hseg i, if_neg (by omega), if_pos hi]
  have hmal : ∀ i : Nat, (i : Int) < g.snake.length → Aligned (moved.seg i) := by
    intro i hi
    by_cases hi0 : i = 0
    · subst hi0
      rw [hm0]; exact moveHead_aligned _ _ (hal 0 (by omega))
    · rw [hmprev i (by omega) hi]
      exact hal (i - 1) (by omega)
  have hmin : ∀ i : Nat, (i : Int) < moved.length →
      (moved.seg i).x + 1 < W ∧ (moved.seg i).y + 1 < H := by
    intro i hi
    rw [hmlen] at hi
    have ha := hmal i hi
    unfold Aligned PIXEL_SIZE at ha
    by_cases hi0 : i = 0
    · subst hi0
      omega
    · have hp := hmprev i (by omega) hi
      have hb := hinside (i - 1) (by omega)
      rw [hp] at ha ⊢
      omega
  have hmoff : ∀ i : Nat, (i : Int) < g.snake.length → moved.seg i ≠ g.food.position := by
    intro i hi
    by_cases hi0 : i = 0
    · subst hi0; exact hnofood
    · rw [hmprev i (by omega) hi]
      exact hoff hrun (i - 1) (by omega)
  -- the three layers of writes of the tick
  have hbg : BACKGROUND_COLOR ≠ SNAKE_COLOR := by decide
  have hfc : FOOD_COLOR ≠ SNAKE_COLOR := by decide
  have key : ∀ x < W, ∀ y < H,
      (inBlock g.food.position x y →
        ledPixel (drawFood W g.food (drawSnake W moved (eraseSnakeTail W
          { g.snake with direction := updateDirection inp g.snake.direction } g.led)))
          (y * W + x) = some FOOD_COLOR) ∧
      (¬ inBlock g.food.position x y →
        (∃ i : Nat, (i : Int) < moved.length ∧ inBlock (moved.seg i) x y) →
        ledPixel (drawFood W g.food (drawSnake W moved (eraseSnakeTail W
          { g.snake with direction := updateDirection inp g.snake.direction } g.led)))
          (y * W + x) = some SNAKE_COLOR) ∧
      (¬ inBlock g.food.position x y →
        (¬ ∃ i : Nat, (i : Int) < moved.length ∧ inBlock (moved.seg i) x y) →
        (inBlock (g.snake.seg (g.snake.length - 1).toNat) x y →
          ledPixel (drawFood W g.food (drawSnake W moved (eraseSnakeTail W
            { g.snake with direction := updateDirection inp g.snake.direction } g.led)))
            (y * W + x) = some BACKGROUND_COLOR) ∧
        (ledPixel (drawFood W g.food (drawSnake W moved (eraseSnakeTail W
            { g.snake with direction := updateDirection inp g.snake.direction } g.led)))
            (y * W + x) = some SNAKE_COLOR →
          ledPixel g.led (y * W + x) = some SNAKE_COLOR ∧
          ¬ inBlock (g.snake.seg (g.snake.length - 1).toNat) x y) ∧
        (¬ inBlock (g.snake.seg (g.snake.length - 1).toNat) x y →
          (ledPixel g.led (y * W + x) = some SNAKE_COLOR →
            ledPixel (drawFood W g.food (drawSnake W moved (eraseSnakeTail W
              { g.snake with direction := updateDirection inp g.snake.direction } g.led)))
              (y * W + x) = some SNAKE_COLOR ∨
            ∃ px ∈ List.range PIXEL_SIZE, ∃ py ∈ List.range PIXEL_SIZE,
              pixelIndex W (g.snake.seg (g.snake.length - 1).toNat) px py = y * W + x))) := by
    intro x hx y hy
    have hdf := ledPixel_paintBlock_inside W H FOOD_COLOR g.food.position
      (drawSnake W moved (eraseSnakeTail W
        { g.snake with direction := updateDirection inp g.snake.direction } g.led))
      x y hWH hfx hfy hx
    have hds := ledPixel_drawSnake_inside W H moved (eraseSnakeTail W
        { g.snake with direction := updateDirection inp g.snake.direction } g.led)
      x y hWH hx hmin
    have hde : ledPixel (eraseSnakeTail W
        { g.snake with direction := updateDirection inp g.snake.direction } g.led) (y * W + x) =
        if ∃ px ∈ List.range PIXEL_SIZE, ∃ py ∈ List.range PIXEL_SIZE,
          pixelIndex W (g.snake.seg (g.snake.length - 1).toNat) px py = y * W + x
        then some BACKGROUND_COLOR else ledPixel g.led (y * W + x) :=
      ledPixel_paintBlock W BACKGROUND_COLOR _ g.led (y * W + x)
    refine ⟨fun hb => ?_, fun hb hsn => ?_, fun hb hsn => ⟨fun ht => ?_, fun hc => ?_,
      fun hnt hold => ?_⟩⟩
    · rw [drawFood, hdf, if_pos hb]
    · rw [drawFood, hdf, if_neg hb, hds.1 hsn]
    · rw [drawFood, hdf, if_neg hb, hds.2 hsn, hde,
        if_pos (block_written W H hWH _ x y hx hy ht)]
    · rw [drawFood, hdf, if_neg hb, hds.2 hsn, hde] at hc
      by_cases he : ∃ px ∈ List.range PIXEL_SIZE, ∃ py ∈ List.range PIXEL_SIZE,
          pixelIndex W (g.snake.seg (g.snake.length - 1).toNat) px py = y * W + x
      · rw [if_pos he] at hc
        exact absurd (Option.some.inj hc) hbg
      · rw [if_neg he] at hc
        exact ⟨hc, fun ht => he (block_written W H hWH _ x y hx hy ht)⟩
    · by_cases he : ∃ px ∈ List.range PIXEL_SIZE, ∃ py ∈ List.range PIXEL_SIZE,
          pixelIndex W (g.snake.seg (g.snake.length - 1).toNat) px py = y * W + x
      · exact Or.inr he
      · left
        rw [drawFood, hdf, if_neg hb, hds.2 hsn, hde, if_neg he]
        exact hold
  -- old blocks against advanced blocks
  have hold_new : ∀ x y : Nat, (∃ i < g.snake.length.toNat, inBlock (g.snake.seg i) x y) →
      inBlock (g.snake.seg (g.snake.length - 1).toNat) x y ∨
      ∃ i : Nat, (i : Int) < moved.length ∧ inBlock (moved.seg i) x y := by
    rintro x y ⟨i, hi, hb⟩
    by_cases hlast : i = (g.snake.length - 1).toNat
    · left; rw [← hlast]; exact hb
    · right
      refine ⟨i + 1, by rw [hmlen]; omega, ?_⟩
      rw [hmprev (i + 1) (by omega) (by omega)]
      exact hb
  have hnew_old : ∀ x y : Nat, (∃ i : Nat, (i : Int) < moved.length ∧ inBlock (moved.seg i) x y) →
      inBlock (moved.seg 0) x y ∨ ∃ i < g.snake.length.toNat, inBlock (g.snake.seg i) x y := by
    rintro x y ⟨i, hi, hb⟩
    rw [hmlen] at hi
    by_cases hi0 : i = 0
    · subst hi0; left; exact hb
    · right
      rw [hmprev i (by omega) hi] at hb
      exact ⟨i - 1, by omega, hb⟩
  have hconv : ∀ x y : Nat, (∃ i < moved.length.toNat, inBlock (moved.seg i) x y) ↔
      ∃ i : Nat, (i : Int) < moved.length ∧ inBlock (moved.seg i) x y := by
    intro x y
    constructor
    · rintro ⟨i, hi, hb⟩; exact ⟨i, by omega, hb⟩
    · rintro ⟨i, hi, hb⟩; exact ⟨i, by omega, hb⟩
  have hfood_off : ∀ x y : Nat, inBlock g.food.position x y →
      ¬ ∃ i : Nat, (i : Int) < moved.length ∧ inBlock (moved.seg i) x y := by
    rintro x y hb ⟨i, hi, hbi⟩
    rw [hmlen] at hi
    exact hmoff i hi (blocks_disjoint _ _ (hmal i hi) haf x y hbi hb)
  refine ⟨_, plain_tick W H inp g hrun hsw moved hmoved hin hself hnofood, rfl, hrun, rfl, rfl,
    ?_, ?_, ?_⟩
  · intro x hx y hy
    show ledPixel (drawFood W g.food (drawSnake W moved (eraseSnakeTail W
        { g.snake with direction := updateDirection inp g.snake.direction } g.led)))
        (y * W + x) = some SNAKE_COLOR ↔ ∃ i < moved.length.toNat, inBlock (moved.seg i) x y
    rw [hconv]
    obtain ⟨k1, k2, k3⟩ := key x hx y hy
    by_cases hb : inBlock g.food.position x y
    · constructor
      · intro hc
        rw [k1 hb] at hc
        exact absurd (Option.some.inj hc) hfc
      · intro hsn
        exact absurd hsn (hfood_off x y hb)
    · constructor
      · intro hc
        by_contra hsn
        obtain ⟨hold, hnt⟩ := (k3 hb hsn).2.1 hc
        rcases hold_new x y ((hshown x hx y hy).mp hold) with ht | hn
        · exact hnt ht
        · exact hsn hn
      · intro hsn
        exact k2 hb hsn
  · intro x hx y hy ht hno hb
    have hno' : ¬ ∃ i : Nat, (i : Int) < moved.length ∧ inBlock (moved.seg i) x y :=
      fun h => hno ((hconv x y).mpr h)
    exact (key x hx y hy).2.2 hb hno' |>.1 ht
  · intro x hx y hy hnt hnh
    show ledPixel (drawFood W g.food (drawSnake W moved (eraseSnakeTail W
        { g.snake with direction := updateDirection inp g.snake.direction } g.led)))
        (y * W + x) = some SNAKE_COLOR ↔ ledPixel g.led (y * W + x) = some SNAKE_COLOR
    have hnh' : ¬ inBlock (moved.seg 0) x y := hnh
    obtain ⟨k1, k2, k3⟩ := key x hx y hy
    by_cases hb : inBlock g.food.position x y
    · constructor
      · intro hc
        rw [k1 hb] at hc
        exact absurd (Option.some.inj hc) hfc
      · intro hold
        exfalso
        rcases hold_new x y ((hshown x hx y hy).mp hold) with ht | hn
        · exact hnt ht
        · exact hfood_off x y hb hn
    · by_cases hsn : ∃ i : Nat, (i : Int) < moved.length ∧ inBlock (moved.seg i) x y
      · constructor
        · intro _
          rcases hnew_old x y hsn with h0 | hold
          · exact absurd h0 hnh'
          · exact (hshown x hx y hy).mpr hold
        · intro _
          exact k2 hb hsn
      · constructor
        · intro hc
          exact ((k3 hb hsn).2.1 hc).1
        · intro hold
          exfalso
          rcases hold_new x y ((hshown x hx y hy).mp hold) with ht | hn
          · exact hnt ht
          · exact hsn hn

theorem of_map_decide {α : Type} (o : Option α) (P : α → Prop) [DecidablePred P]
    (h : o.map (fun a => decide (P a)) = some true) (a : α) (ha : o = some a) : P a := by
  subst ha
  simpa using h

theorem wideRun_ne_none : wideRun ≠ none := by decide

/-- An instance of `trail_erasure_on_even_display`: on a 16 x 12 display the
snake (12,10),(10,10),(8,10) advances to (14,10) with no collision and no
food, and the display again shows exactly the snake blocks. -/
theorem trail_erasure_on_even_display_example :
    ∃ g g' : Game, wideRun = some g ∧ loopIteration 16 12 idleInput g = some g' ∧
      g'.snake = moveSnake
        { g.snake with direction := updateDirection idleInput g.snake.direction } ∧
      SnakeShown 16 12 g' := by
  cases h : wideRun with
  | none => exact absurd h wideRun_ne_none
  | some g =>
    cases h0 : mainStart 16 12 0 zeroSnake ⟨⟨0, 0⟩⟩ [1, 1, 1, 1] with
    | none =>
      unfold wideRun at h
      rw [h0] at h
      exact absurd h (by simp)
    | some g0 =>
      have hrun0 : runLoop 16 12 [startInput] g0 = some g := by
        unfold wideRun at h
        rw [h0] at h
        exact h
      have p1 := of_map_decide wideRun (fun g => g.game_state = GameState.RUNNING)
        (by decide) g h
      have p2 := of_map_decide wideRun (fun g =>
        ((moveSnake { g.snake with
            direction := updateDirection idleInput g.snake.direction }).seg 0).x < 16 ∧
        ((moveSnake { g.snake with
            direction := updateDirection idleInput g.snake.direction }).seg 0).y < 12)
        (by decide) g h
      have p3 := of_map_decide wideRun (fun g =>
        (moveSnake { g.snake with
            direction := updateDirection idleInput g.snake.direction }).length = 3 ∧
        (moveSnake { g.snake with
            direction := updateDirection idleInput g.snake.direction }).seg 1 ≠
          (moveSnake { g.snake with
            direction := updateDirection idleInput g.snake.direction }).seg 0 ∧
        (moveSnake { g.snake with
            direction := updateDirection idleInput g.snake.direction }).seg 2 ≠
          (moveSnake { g.snake with
            direction := updateDirection idleInput g.snake.direction }).seg 0)
        (by decide) g h
      have p4 := of_map_decide wideRun (fun g =>
        (moveSnake { g.snake with
            direction := updateDirection idleInput g.snake.direction }).seg 0 ≠ g.food.position)
        (by decide) g h
      have p5 := of_map_decide wideRun (fun g =>
        SegmentsDistinct g.snake ∧ SegmentsInside 16 12 g.snake ∧ SnakeShown 16 12 g)
        (by decide) g h
      obtain ⟨g', hg', hsn, _, _, _, hshown, _⟩ :=
        trail_erasure_on_even_display 16 12 (by decide) (by decide) (by decide) 0 zeroSnake ⟨⟨0, 0⟩⟩
          [1, 1, 1, 1] [startInput] g0 g (by decide) (by decide) h0 hrun0 idleInput p1
          (by decide) _ rfl p2
          (fun i hi1 hi => by
            rw [p3.1] at hi
            have : i = 1 ∨ i = 2 := by omega
            rcases this with e | e <;> subst e
            · exact p3.2.1
            · exact p3.2.2)
          p4 p5.1 p5.2.1 p5.2.2
      exact ⟨g, g', rfl, hg', hsn, hshown⟩

end CSnake
